import Mathlib

set_option linter.unusedVariables false

/-! Verification of the TikZ-CAD application core (the App component of the
repository): shape model, snapshot-based undo/redo history, selection, and the
parametric transform operations (duplicate, paste, linear pattern, circular
pattern, offset, mirror, nudge, delete, property update).

Coordinates are modelled over the rationals.  The source computes with
JavaScript numbers; the irrational primitives it calls (Math.cos, Math.sin,
Math.atan2, Math.sqrt, Math.PI) are passed in as explicit oracle parameters
(cosQ, sinQ, atanQ, sqrtQ, piQ), and theorems that depend on their analytic
properties take those properties as hypotheses at the values actually used.
Fresh shape ids, produced in the source by Math.random().toString(36), are
modelled by an id-supply parameter gen : Nat -> String that the handlers
consume positionally. -/

/-- Shape kind tags, exactly the variant set of the source Shape type. -/
inductive ShapeType where
  | freehand | line | bezier | rect | round_rect | circle | ellipse | arc
  | measure | measure_radius | mark_angle | brace | text
  deriving DecidableEq

/-- Line style attribute (solid, dashed or dotted). -/
inductive LineStyle where
  | solid | dashed | dotted
  deriving DecidableEq

/-- Arrow attribute.  The source values are none, start, end and both; end is a
reserved word in Lean, so that constructor is named endArrow here. -/
inductive ArrowStyle where
  | none | start | endArrow | both
  deriving DecidableEq

/-- Hatch fill attribute. -/
inductive HatchStyle where
  | none | lines | grid | dots
  deriving DecidableEq

/-- Drawing mode of the canvas, as used by the App component. -/
inductive DrawingMode where
  | pan | freehand | line | bezier | rect | round_rect | circle | ellipse | arc
  | measure | measure_radius | mark_angle | brace | text | mirror_axis
  | circular_pattern
  deriving DecidableEq

/-- One drawable entity, mirroring the source Shape record: primary anchor
coordinates x1,y1,x2,y2, optional control points, optional freehand point list,
optional label anchor, style attributes, rotation, arc sweep angles, corner
radius, label text, and the construction-only flag isGuide.  Optional fields of
the source are Option-valued here. -/
structure Shape where
  id : String
  type : ShapeType
  x1 : ℚ := 0
  y1 : ℚ := 0
  x2 : ℚ := 0
  y2 : ℚ := 0
  cx1 : Option ℚ := none
  cy1 : Option ℚ := none
  cx2 : Option ℚ := none
  cy2 : Option ℚ := none
  points : Option (List (ℚ × ℚ)) := none
  textX : Option ℚ := none
  textY : Option ℚ := none
  style : LineStyle := .solid
  arrow : ArrowStyle := .none
  lineWidth : ℚ := 1
  strokeColor : String := ""
  fillColor : String := "none"
  hatchStyle : HatchStyle := .none
  rotation : Option ℚ := none
  startAngle : Option ℚ := none
  endAngle : Option ℚ := none
  cornerRadius : Option ℚ := none
  text : Option String := none
  isGuide : Bool := false
  deriving DecidableEq

/-- The App component state cells that the claims are about: the shape
collection, the two history stacks, the selection id set, the drawing mode and
the clipboard. -/
structure AppState where
  shapes : List Shape := []
  history : List (List Shape) := []
  future : List (List Shape) := []
  selected : Finset String := ∅
  mode : DrawingMode := .pan
  clipboard : List Shape := []
  deriving DecidableEq

/-- The shapes of the collection whose id is currently selected, in collection
order (the handlers iterate the collection and test membership, as in the
source forEach loops). -/
def selectedShapes (st : AppState) : List Shape :=
  st.shapes.filter (fun s => decide (s.id ∈ st.selected))

/-- saveHistory: push the current collection onto the undo stack and clear the
redo stack. -/
def saveHistory (st : AppState) : AppState :=
  { st with history := st.history ++ [st.shapes], future := [] }

/-- handleUndo: if the undo stack is nonempty, pop its top into the current
collection, push the pre-undo collection onto the redo stack, and keep only the
selected ids that occur in the restored collection. -/
def handleUndo (st : AppState) : AppState :=
  match st.history.getLast? with
  | none => st
  | some prev =>
      { st with
        shapes := prev,
        history := st.history.dropLast,
        future := st.future ++ [st.shapes],
        selected := st.selected.filter (fun i => ∃ s ∈ prev, s.id = i) }

/-- handleRedo: the mirror of handleUndo, popping from the redo stack. -/
def handleRedo (st : AppState) : AppState :=
  match st.future.getLast? with
  | none => st
  | some nxt =>
      { st with
        shapes := nxt,
        history := st.history ++ [st.shapes],
        future := st.future.dropLast,
        selected := st.selected.filter (fun i => ∃ s ∈ nxt, s.id = i) }

/-- handleShapeAdd: push a history snapshot and append the new shape. -/
def handleShapeAdd (sh : Shape) (st : AppState) : AppState :=
  { saveHistory st with shapes := st.shapes ++ [sh] }

/-- Rounding used by the mirror operation: Math.round(num * 10000) / 10000,
with Math.round rounding half toward positive infinity. -/
def jround (q : ℚ) : ℚ :=
  (⌊q * 10000 + 1/2⌋ : ℚ) / 10000

/-- reflectPoint from performMirror: reflect a point across the infinite line
through (lx1,ly1) and (lx2,ly2); a zero-length line returns the point
unchanged; otherwise both output coordinates are rounded to 4 decimals. -/
def reflectPoint (lx1 ly1 lx2 ly2 px py : ℚ) : ℚ × ℚ :=
  let dx := lx2 - lx1
  let dy := ly2 - ly1
  if dx = 0 ∧ dy = 0 then (px, py)
  else
    let a := (dx * dx - dy * dy) / (dx * dx + dy * dy)
    let b := 2 * dx * dy / (dx * dx + dy * dy)
    (jround (a * (px - lx1) + b * (py - ly1) + lx1),
     jround (b * (px - lx1) - a * (py - ly1) + ly1))

/-- rotatePoint from handleCircularPatternCenter: rotate (x,y) about the pivot
by the given angle.  The source computes Math.cos(angle) and Math.sin(angle);
here the trigonometric functions are the oracle parameters cosQ and sinQ. -/
def rotatePoint (cosQ sinQ : ℚ → ℚ) (x y pivotX pivotY angle : ℚ) : ℚ × ℚ :=
  let c := cosQ angle
  let s := sinQ angle
  (c * (x - pivotX) - s * (y - pivotY) + pivotX,
   s * (x - pivotX) + c * (y - pivotY) + pivotY)

/-- Translation of every coordinate field present on a shape: both endpoints,
the control points, the label anchor and the point list.  This is the common
body of handleLinearPattern copies and handleNudge (both translate a component
exactly when the corresponding source field is defined). -/
def translateShape (dx dy : ℚ) (s : Shape) : Shape :=
  { s with
    x1 := s.x1 + dx, y1 := s.y1 + dy, x2 := s.x2 + dx, y2 := s.y2 + dy,
    cx1 := s.cx1.map (· + dx), cy1 := s.cy1.map (· + dy),
    cx2 := s.cx2.map (· + dx), cy2 := s.cy2.map (· + dy),
    textX := s.textX.map (· + dx), textY := s.textY.map (· + dy),
    points := s.points.map (List.map (fun p => (p.1 + dx, p.2 + dy))) }

/-- Offset an optional coordinate by d, but only when its value is nonzero:
the source duplicate and paste handlers guard the control-point shifts with a
JavaScript truthiness test (if (shape.cx1) ...), so a control point equal to 0
is left unchanged. -/
def offsetNZ (d : ℚ) (o : Option ℚ) : Option ℚ :=
  o.map (fun v => if v = 0 then v else v + d)

/-- The per-shape copy made by handleDuplicate and handlePaste: endpoints and
point list shifted by (+2,-2); control points shifted only for bezier and
measure shapes and only when the component is nonzero (truthiness guard in the
source); the label anchor is not shifted. -/
def dupShape (nid : String) (s : Shape) : Shape :=
  { s with
    id := nid,
    x1 := s.x1 + 2, y1 := s.y1 - 2, x2 := s.x2 + 2, y2 := s.y2 - 2,
    points := s.points.map (List.map (fun p => (p.1 + 2, p.2 - 2))),
    cx1 := if s.type = .bezier ∨ s.type = .measure then offsetNZ 2 s.cx1 else s.cx1,
    cy1 := if s.type = .bezier ∨ s.type = .measure then offsetNZ (-2) s.cy1 else s.cy1,
    cx2 := if s.type = .bezier ∨ s.type = .measure then offsetNZ 2 s.cx2 else s.cx2,
    cy2 := if s.type = .bezier ∨ s.type = .measure then offsetNZ (-2) s.cy2 else s.cy2 }

/-- Copies made by duplicate or paste, consuming one fresh id per source
shape. -/
def dupList (gen : ℕ → String) (k : ℕ) : List Shape → List Shape
  | [] => []
  | s :: rest => dupShape (gen k) s :: dupList gen (k + 1) rest

/-- handleDuplicate: with a nonempty selection, push history and append one
shifted copy of every selected shape; the selection becomes the copies. -/
def handleDuplicate (gen : ℕ → String) (st : AppState) : AppState :=
  if st.selected = ∅ then st
  else
    let copies := dupList gen 0 (selectedShapes st)
    { saveHistory st with
      shapes := st.shapes ++ copies,
      selected := (copies.map Shape.id).toFinset }

/-- handlePaste: with a nonempty clipboard, push history and append one
shifted copy of every clipboard shape; the selection becomes the copies. -/
def handlePaste (gen : ℕ → String) (st : AppState) : AppState :=
  if st.clipboard = [] then st
  else
    let copies := dupList gen 0 st.clipboard
    { saveHistory st with
      shapes := st.shapes ++ copies,
      selected := (copies.map Shape.id).toFinset }

/-- The four axis-aligned directions of the linear pattern tool. -/
inductive PatternDirection where
  | horizontal | horizontal_neg | vertical | vertical_neg
  deriving DecidableEq

/-- Step vector of the linear pattern, exactly the dx/dy dispatch of
handleLinearPattern. -/
def stepVec (dir : PatternDirection) (spacing : ℚ) : ℚ × ℚ :=
  match dir with
  | .horizontal => (spacing, 0)
  | .horizontal_neg => (-spacing, 0)
  | .vertical => (0, spacing)
  | .vertical_neg => (0, -spacing)

/-- The copies generated by the linear pattern: for every selected shape, K
copies translated by (i+1) times the step vector (i = 0..K-1, so offsets
1x..Kx), with ids consumed sequentially. -/
def linCopies (gen : ℕ → String) (k K : ℕ) (dx dy : ℚ) : List Shape → List Shape
  | [] => []
  | s :: rest =>
      ((List.range K).map fun (i : ℕ) =>
        { translateShape (dx * ((i : ℚ) + 1)) (dy * ((i : ℚ) + 1)) s with
          id := gen (k + i) })
      ++ linCopies gen (k + K) K dx dy rest

/-- handleLinearPattern: no-op on an empty selection or a count below 2;
otherwise push history, append count-1 stepped copies per selected shape, and
select the originals together with the copies. -/
def handleLinearPattern (gen : ℕ → String) (dir : PatternDirection)
    (count : ℕ) (spacing : ℚ) (st : AppState) : AppState :=
  if st.selected = ∅ then st
  else if count < 2 then st
  else
    let v := stepVec dir spacing
    let ss := selectedShapes st
    let copies := linCopies gen 0 (count - 1) v.1 v.2 ss
    { saveHistory st with
      shapes := st.shapes ++ copies,
      selected := (ss.map Shape.id).toFinset ∪ (copies.map Shape.id).toFinset }

/-- The box-based shape category used by the circular pattern and the mirror
operation (both source lists contain the same six types). -/
def isBoxBased (t : ShapeType) : Bool :=
  match t with
  | .rect | .text | .arc | .ellipse | .circle | .round_rect => true
  | _ => false

/-- Types whose (x1,y1) is already the geometric center (the inner
circle/ellipse/arc/text test of handleCircularPatternCenter). -/
def isCenterAnchored (t : ShapeType) : Bool :=
  match t with
  | .circle | .ellipse | .arc | .text => true
  | _ => false

/-- Rotate an optional coordinate pair about a pivot.  The source guards on
cx1 being defined and then dereferences cy1; pairs are treated as present only
when both components are (on a component mismatch the source would produce
NaN, which the rational model cannot represent; no claim exercises that). -/
def rotOpt (cosQ sinQ : ℚ → ℚ) (pivotX pivotY angle : ℚ)
    (ox oy : Option ℚ) : Option ℚ × Option ℚ :=
  match ox, oy with
  | some a, some b =>
      let p := rotatePoint cosQ sinQ a b pivotX pivotY angle
      (some p.1, some p.2)
  | a, b => (a, b)

/-- One rotated copy of a shape in the circular pattern, exactly the loop body
of handleCircularPatternCenter: box-based shapes rotate their own center about
the pivot, keep their dimension offsets, rotate control points and label
anchor about the pre-rotation center, and accumulate the angle into rotation;
point-based shapes rotate every defining coordinate about the pivot. -/
def circCopy (cosQ sinQ : ℚ → ℚ) (cx cy : ℚ) (nid : String) (angle : ℚ)
    (s : Shape) : Shape :=
  if isBoxBased s.type then
    let mid : ℚ × ℚ :=
      if isCenterAnchored s.type then (s.x1, s.y1)
      else ((s.x1 + s.x2) / 2, (s.y1 + s.y2) / 2)
    let rc := rotatePoint cosQ sinQ mid.1 mid.2 cx cy angle
    let dx := s.x2 - s.x1
    let dy := s.y2 - s.y1
    let c1 := rotOpt cosQ sinQ mid.1 mid.2 angle s.cx1 s.cy1
    let c2 := rotOpt cosQ sinQ mid.1 mid.2 angle s.cx2 s.cy2
    let tx := rotOpt cosQ sinQ mid.1 mid.2 angle s.textX s.textY
    { s with
      id := nid,
      x1 := if isCenterAnchored s.type then rc.1 else rc.1 - dx / 2,
      y1 := if isCenterAnchored s.type then rc.2 else rc.2 - dy / 2,
      x2 := if isCenterAnchored s.type then rc.1 + dx else rc.1 + dx / 2,
      y2 := if isCenterAnchored s.type then rc.2 + dy else rc.2 + dy / 2,
      cx1 := c1.1, cy1 := c1.2, cx2 := c2.1, cy2 := c2.2,
      textX := tx.1, textY := tx.2,
      rotation := some (s.rotation.getD 0 + angle) }
  else
    let p1 := rotatePoint cosQ sinQ s.x1 s.y1 cx cy angle
    let p2 := rotatePoint cosQ sinQ s.x2 s.y2 cx cy angle
    let c1 := rotOpt cosQ sinQ cx cy angle s.cx1 s.cy1
    let c2 := rotOpt cosQ sinQ cx cy angle s.cx2 s.cy2
    let tx := rotOpt cosQ sinQ cx cy angle s.textX s.textY
    { s with
      id := nid,
      x1 := p1.1, y1 := p1.2, x2 := p2.1, y2 := p2.2,
      cx1 := c1.1, cy1 := c1.2, cx2 := c2.1, cy2 := c2.2,
      textX := tx.1, textY := tx.2,
      points := s.points.map (List.map
        (fun p => rotatePoint cosQ sinQ p.1 p.2 cx cy angle)) }

/-- The geometric center a box-based shape rotates about, exactly the
midX/midY computation of handleCircularPatternCenter: (x1,y1) for
center-anchored types, the corner midpoint for rect and round_rect. -/
def shapeCenter (s : Shape) : ℚ × ℚ :=
  if isCenterAnchored s.type then (s.x1, s.y1)
  else ((s.x1 + s.x2) / 2, (s.y1 + s.y2) / 2)

/-- All rotated copies of the circular pattern: K copies per selected shape at
angles (i+1)*step (i = 0..K-1), ids consumed sequentially. -/
def circCopies (cosQ sinQ : ℚ → ℚ) (cx cy : ℚ) (gen : ℕ → String) (k K : ℕ)
    (step : ℚ) : List Shape → List Shape
  | [] => []
  | s :: rest =>
      ((List.range K).map fun (i : ℕ) =>
        circCopy cosQ sinQ cx cy (gen (k + i)) (((i : ℚ) + 1) * step) s)
      ++ circCopies cosQ sinQ cx cy gen (k + K) K step rest

/-- Fold of a per-shape value with min over a shape list.  The source starts
its bounding-box scan from Infinity; on a nonempty list that equals folding
from the first element, which is the form used here.  (On an empty list the
source would keep Infinity, which ℚ cannot represent; the claims only concern
nonempty selections and the result for the empty list is the unused default
0.) -/
def listMin (f : Shape → ℚ) : List Shape → ℚ
  | [] => 0
  | s :: rest => rest.foldl (fun a t => min a (f t)) (f s)

/-- Fold of a per-shape value with max over a shape list; see listMin. -/
def listMax (f : Shape → ℚ) : List Shape → ℚ
  | [] => 0
  | s :: rest => rest.foldl (fun a t => max a (f t)) (f s)

/-- handleCircularPatternCenter: no-op on an empty selection or a count below
2; otherwise push history, insert one dashed guide circle centered at the
clicked pivot whose radius is the distance from the selection bounding-box
center to the pivot, then append count-1 rotated copies per selected shape at
angle steps of 2*pi/count, select originals plus copies, and reset the mode to
pan.  Math.sqrt and Math.PI are the oracle parameters sqrtQ and piQ. -/
def handleCircularPatternCenter (cosQ sinQ : ℚ → ℚ) (piQ : ℚ)
    (sqrtQ : ℚ → ℚ) (gen : ℕ → String) (count : ℕ) (cx cy : ℚ)
    (st : AppState) : AppState :=
  if st.selected = ∅ ∨ count < 2 then st
  else
    let ss := selectedShapes st
    let minX := listMin (fun s => min s.x1 s.x2) ss
    let maxX := listMax (fun s => max s.x1 s.x2) ss
    let minY := listMin (fun s => min s.y1 s.y2) ss
    let maxY := listMax (fun s => max s.y1 s.y2) ss
    let selCenterX := (minX + maxX) / 2
    let selCenterY := (minY + maxY) / 2
    let radius := sqrtQ ((selCenterX - cx) ^ 2 + (selCenterY - cy) ^ 2)
    let guide : Shape :=
      { id := gen 0, type := .circle,
        x1 := cx, y1 := cy, x2 := cx + radius, y2 := cy,
        style := .dashed, arrow := .none, lineWidth := 1,
        strokeColor := "#94a3b8", fillColor := "none", isGuide := true }
    let step := 2 * piQ / (count : ℚ)
    let copies := circCopies cosQ sinQ cx cy (fun n => gen (n + 1)) 0
      (count - 1) step ss
    { saveHistory st with
      shapes := st.shapes ++ (guide :: copies),
      selected := (ss.map Shape.id).toFinset ∪ (copies.map Shape.id).toFinset,
      mode := .pan }

/-- The per-shape kernel of handleOffset: rect and round_rect shrink all four
normalized edges inward, kept only when both resulting extents are positive;
circle keeps its center and shrinks its radius, kept only when positive;
ellipse shrinks both radii, kept only when both stay positive; every other
type yields nothing.  The source circle branch computes
newRadius * cos(atan2(dy,dx)); for (dy,dx) nonzero that equals
newRadius * dx / radius, and for the degenerate (0,0) rim atan2 is 0 so the
factor pair is (1,0), which is the form modelled here.  Math.sqrt is the
oracle parameter sqrtQ. -/
def offsetShape (sqrtQ : ℚ → ℚ) (dist : ℚ) (nid : String) (s : Shape) :
    Option Shape :=
  if s.type = .rect ∨ s.type = .round_rect then
    let minX := min s.x1 s.x2
    let maxX := max s.x1 s.x2
    let minY := min s.y1 s.y2
    let maxY := max s.y1 s.y2
    let nMinX := minX + dist
    let nMaxX := maxX - dist
    let nMinY := minY + dist
    let nMaxY := maxY - dist
    if nMinX < nMaxX ∧ nMinY < nMaxY then
      some { s with id := nid, x1 := nMinX, y1 := nMinY, x2 := nMaxX, y2 := nMaxY }
    else none
  else if s.type = .circle then
    let radius := sqrtQ ((s.x2 - s.x1) ^ 2 + (s.y2 - s.y1) ^ 2)
    let newRadius := radius - dist
    if 0 < newRadius then
      let co := if s.x2 - s.x1 = 0 ∧ s.y2 - s.y1 = 0 then (1 : ℚ)
        else (s.x2 - s.x1) / radius
      let si := if s.x2 - s.x1 = 0 ∧ s.y2 - s.y1 = 0 then (0 : ℚ)
        else (s.y2 - s.y1) / radius
      some { s with
        id := nid,
        x2 := s.x1 + newRadius * co, y2 := s.y1 + newRadius * si }
    else none
  else if s.type = .ellipse then
    let rx := |s.x2 - s.x1|
    let ry := |s.y2 - s.y1|
    let nRx := rx - dist
    let nRy := ry - dist
    if 0 < nRx ∧ 0 < nRy then
      let signX : ℚ := if s.x1 ≤ s.x2 then 1 else -1
      let signY : ℚ := if s.y1 ≤ s.y2 then 1 else -1
      some { s with
        id := nid,
        x2 := s.x1 + signX * nRx, y2 := s.y1 + signY * nRy }
    else none
  else none

/-- The surviving offset shapes of a selection, consuming one fresh id per
produced shape (the source calls the id generator only when a shape
survives). -/
def offsetList (sqrtQ : ℚ → ℚ) (gen : ℕ → String) (k : ℕ) (dist : ℚ) :
    List Shape → List Shape
  | [] => []
  | s :: rest =>
      match offsetShape sqrtQ dist (gen k) s with
      | some t => t :: offsetList sqrtQ gen (k + 1) dist rest
      | none => offsetList sqrtQ gen k dist rest

/-- handleOffset: no-op on an empty selection; otherwise push history and, if
any selected shape survives the per-shape offset, append the survivors and
select them (the history frame is pushed even when nothing survives, exactly
as in the source). -/
def handleOffset (sqrtQ : ℚ → ℚ) (gen : ℕ → String) (dist : ℚ)
    (st : AppState) : AppState :=
  if st.selected = ∅ then st
  else
    let ns := offsetList sqrtQ gen 0 dist (selectedShapes st)
    if ns = [] then saveHistory st
    else
      { saveHistory st with
        shapes := st.shapes ++ ns,
        selected := (ns.map Shape.id).toFinset }

/-- Reflect an optional coordinate pair across the mirror line; present only
when both components are (see rotOpt for the convention). -/
def reflOpt (lx1 ly1 lx2 ly2 : ℚ) (ox oy : Option ℚ) :
    Option ℚ × Option ℚ :=
  match ox, oy with
  | some a, some b =>
      let p := reflectPoint lx1 ly1 lx2 ly2 a b
      (some p.1, some p.2)
  | a, b => (a, b)

/-- One mirrored copy of a shape, exactly the loop body of performMirror:
box-based shapes reflect their center (midpoint for rect/round_rect, (x1,y1)
otherwise), rebuild their corners from the preserved width and height, reflect
the rim point (except text), recompute rotation as 2*lineAngle - old, swap and
negate arc sweep angles, and reflect the label anchor; point-based shapes
reflect every defining coordinate. -/
def mirrorShape (lx1 ly1 lx2 ly2 lineAngle : ℚ) (nid : String) (s : Shape) :
    Shape :=
  if isBoxBased s.type then
    let c : ℚ × ℚ :=
      if s.type = .rect ∨ s.type = .round_rect then
        ((s.x1 + s.x2) / 2, (s.y1 + s.y2) / 2)
      else (s.x1, s.y1)
    let cr := reflectPoint lx1 ly1 lx2 ly2 c.1 c.2
    let width := |s.x2 - s.x1|
    let height := |s.y2 - s.y1|
    let rim := reflectPoint lx1 ly1 lx2 ly2 s.x2 s.y2
    let tx := reflOpt lx1 ly1 lx2 ly2 s.textX s.textY
    { s with
      id := nid,
      x1 := if s.type = .rect ∨ s.type = .round_rect then cr.1 - width / 2 else cr.1,
      x2 := if s.type = .rect ∨ s.type = .round_rect then cr.1 + width / 2
        else if s.type = .text then cr.1 else rim.1,
      y1 := if s.type = .rect ∨ s.type = .round_rect then cr.2 - height / 2 else cr.2,
      y2 := if s.type = .rect ∨ s.type = .round_rect then cr.2 + height / 2
        else if s.type = .text then cr.2 else rim.2,
      rotation := some (2 * lineAngle - s.rotation.getD 0),
      startAngle := if s.type = .arc then some (2 * lineAngle - s.endAngle.getD 0)
        else s.startAngle,
      endAngle := if s.type = .arc then some (2 * lineAngle - s.startAngle.getD 0)
        else s.endAngle,
      textX := tx.1, textY := tx.2 }
  else
    let p1 := reflectPoint lx1 ly1 lx2 ly2 s.x1 s.y1
    let p2 := reflectPoint lx1 ly1 lx2 ly2 s.x2 s.y2
    let c1 := reflOpt lx1 ly1 lx2 ly2 s.cx1 s.cy1
    let c2 := reflOpt lx1 ly1 lx2 ly2 s.cx2 s.cy2
    { s with
      id := nid,
      x1 := p1.1, y1 := p1.2, x2 := p2.1, y2 := p2.2,
      cx1 := c1.1, cy1 := c1.2, cx2 := c2.1, cy2 := c2.2,
      points := s.points.map (List.map
        (fun p => reflectPoint lx1 ly1 lx2 ly2 p.1 p.2)) }

/-- Mirrored copies of a shape list, one fresh id per copy. -/
def mirrorList (lx1 ly1 lx2 ly2 lineAngle : ℚ) (gen : ℕ → String) (k : ℕ) :
    List Shape → List Shape
  | [] => []
  | s :: rest =>
      mirrorShape lx1 ly1 lx2 ly2 lineAngle (gen k) s
      :: mirrorList lx1 ly1 lx2 ly2 lineAngle gen (k + 1) rest

/-- performMirror: push history unconditionally, append one mirrored copy of
every selected shape, select the copies, and reset the mode to pan.
Math.atan2 is the oracle parameter atanQ (applied as atanQ dy dx). -/
def performMirror (atanQ : ℚ → ℚ → ℚ) (gen : ℕ → String)
    (lx1 ly1 lx2 ly2 : ℚ) (st : AppState) : AppState :=
  let lineAngle := atanQ (ly2 - ly1) (lx2 - lx1)
  let copies := mirrorList lx1 ly1 lx2 ly2 lineAngle gen 0 (selectedShapes st)
  { saveHistory st with
    shapes := st.shapes ++ copies,
    selected := (copies.map Shape.id).toFinset,
    mode := .pan }

/-- handleDelete: with a nonempty selection, push history, remove the selected
shapes and clear the selection. -/
def handleDelete (st : AppState) : AppState :=
  if st.selected = ∅ then st
  else
    { saveHistory st with
      shapes := st.shapes.filter (fun s => decide (s.id ∉ st.selected)),
      selected := ∅ }

/-- handleNudge: with a nonempty selection, push history and translate every
coordinate field of every selected shape in place. -/
def handleNudge (dx dy : ℚ) (st : AppState) : AppState :=
  if st.selected = ∅ then st
  else
    { saveHistory st with
      shapes := st.shapes.map (fun s =>
        if s.id ∈ st.selected then translateShape dx dy s else s) }

/-- The property-panel updates applied through updateSelectedProperty, one
constructor per source key with its value type. -/
inductive PropUpdate where
  | style (v : LineStyle)
  | arrow (v : ArrowStyle)
  | lineWidth (v : ℚ)
  | fillColor (v : String)
  | strokeColor (v : String)
  | hatch (v : HatchStyle)
  | cornerRadius (v : ℚ)
  deriving DecidableEq

/-- Apply one property update to one shape. -/
def applyProp (u : PropUpdate) (s : Shape) : Shape :=
  match u with
  | .style v => { s with style := v }
  | .arrow v => { s with arrow := v }
  | .lineWidth v => { s with lineWidth := v }
  | .fillColor v => { s with fillColor := v }
  | .strokeColor v => { s with strokeColor := v }
  | .hatch v => { s with hatchStyle := v }
  | .cornerRadius v => { s with cornerRadius := some v }

/-- updateSelectedProperty: with a nonempty selection, push history and apply
the update to every selected shape in place. -/
def updateSelectedProperty (u : PropUpdate) (st : AppState) : AppState :=
  if st.selected = ∅ then st
  else
    { saveHistory st with
      shapes := st.shapes.map (fun s =>
        if s.id ∈ st.selected then applyProp u s else s) }

/-- The mutating operations of claim C1, each carrying its parameters and
oracles. -/
inductive MutOp where
  | addShape (sh : Shape)
  | duplicate (gen : ℕ → String)
  | paste (gen : ℕ → String)
  | linearPattern (gen : ℕ → String) (dir : PatternDirection) (count : ℕ)
      (spacing : ℚ)
  | circularPattern (cosQ sinQ : ℚ → ℚ) (piQ : ℚ) (sqrtQ : ℚ → ℚ)
      (gen : ℕ → String) (count : ℕ) (cx cy : ℚ)
  | offsetOp (sqrtQ : ℚ → ℚ) (gen : ℕ → String) (dist : ℚ)
  | mirrorOp (atanQ : ℚ → ℚ → ℚ) (gen : ℕ → String) (lx1 ly1 lx2 ly2 : ℚ)
  | nudge (dx dy : ℚ)
  | deleteSel
  | propUpdate (u : PropUpdate)

/-- Dispatch a mutating operation to its handler. -/
def applyOp (op : MutOp) (st : AppState) : AppState :=
  match op with
  | .addShape sh => handleShapeAdd sh st
  | .duplicate gen => handleDuplicate gen st
  | .paste gen => handlePaste gen st
  | .linearPattern gen dir count spacing =>
      handleLinearPattern gen dir count spacing st
  | .circularPattern cosQ sinQ piQ sqrtQ gen count cx cy =>
      handleCircularPatternCenter cosQ sinQ piQ sqrtQ gen count cx cy st
  | .offsetOp sqrtQ gen dist => handleOffset sqrtQ gen dist st
  | .mirrorOp atanQ gen lx1 ly1 lx2 ly2 =>
      performMirror atanQ gen lx1 ly1 lx2 ly2 st
  | .nudge dx dy => handleNudge dx dy st
  | .deleteSel => handleDelete st
  | .propUpdate u => updateSelectedProperty u st

/-- The guard under which each operation actually mutates (the source early
returns otherwise): the per-operation nonempty selection, clipboard and
minimum-count conditions. -/
def MutOp.guard (op : MutOp) (st : AppState) : Prop :=
  match op with
  | .addShape _ => True
  | .duplicate _ => st.selected ≠ ∅
  | .paste _ => st.clipboard ≠ []
  | .linearPattern _ _ count _ => st.selected ≠ ∅ ∧ 2 ≤ count
  | .circularPattern _ _ _ _ _ count _ _ => st.selected ≠ ∅ ∧ 2 ≤ count
  | .offsetOp _ _ _ => st.selected ≠ ∅
  | .mirrorOp _ _ _ _ _ _ => True
  | .nudge _ _ => st.selected ≠ ∅
  | .deleteSel => st.selected ≠ ∅
  | .propUpdate _ => st.selected ≠ ∅

/-- Closeness of two rationals within 1/8000 (= 1.25e-4), the provable
round-trip tolerance of the double mirror: each reflection rounds to 4
decimals (error up to 1/20000) and the reflection matrix can amplify the first
rounding error by up to |a|+|b|, which is at most 3/2. -/
def qClose (u v : ℚ) : Prop := |u - v| ≤ 1 / 8000

/-- Closeness of two optional coordinates: both absent, or both present and
close. -/
def optClose (o p : Option ℚ) : Prop :=
  match o, p with
  | some u, some v => qClose u v
  | none, none => True
  | _, _ => False

/-- Closeness of two optional point lists: both absent, or pointwise close. -/
def pointsClose (o p : Option (List (ℚ × ℚ))) : Prop :=
  match o, p with
  | some l1, some l2 =>
      List.Forall₂ (fun u v => qClose u.1 v.1 ∧ qClose u.2 v.2) l1 l2
  | none, none => True
  | _, _ => False

/-- The mirror round-trip contract: every coordinate field of t is within
1/8000 of the corresponding field of s (absent fields agree), the point list
is pointwise within 1/8000, and the rotation and (for an arc) the start and
end sweep angles return exactly to their original values. -/
def mirrorClose (t s : Shape) : Prop :=
  qClose t.x1 s.x1 ∧ qClose t.y1 s.y1 ∧ qClose t.x2 s.x2 ∧ qClose t.y2 s.y2 ∧
  optClose t.cx1 s.cx1 ∧ optClose t.cy1 s.cy1 ∧
  optClose t.cx2 s.cx2 ∧ optClose t.cy2 s.cy2 ∧
  optClose t.textX s.textX ∧ optClose t.textY s.textY ∧
  pointsClose t.points s.points ∧
  t.rotation.getD 0 = s.rotation.getD 0 ∧
  (s.type = .arc → t.startAngle.getD 0 = s.startAngle.getD 0 ∧
    t.endAngle.getD 0 = s.endAngle.getD 0)

/-! Sample shapes and states used by the concrete witnesses and
counterexamples. -/

/-- Sample line shape. -/
def shA : Shape := { id := "a", type := .line, x1 := 0, y1 := 0, x2 := 3, y2 := 4 }

/-- Sample rectangle shape, corners (-1,-1) and (1,1). -/
def shB : Shape := { id := "b", type := .rect, x1 := -1, y1 := -1, x2 := 1, y2 := 1 }

/-- Sample state: one line shape, selected. -/
def stA : AppState := { shapes := [shA], selected := {"a"} }

/-- Sample state with a nonempty undo stack and a nonempty redo stack. -/
def stU : AppState :=
  { shapes := [], history := [[shA]], future := [[shB]], selected := {"a", "x"} }

/-- Sample bezier shape whose first control point is present with value 0. -/
def shC : Shape :=
  { id := "p", type := .bezier, x1 := 0, y1 := 0, x2 := 4, y2 := 0,
    cx1 := some 0, cy1 := some 5, cx2 := some 3, cy2 := some 5 }

/-- Sample state: the bezier shape shC, selected. -/
def stC : AppState := { shapes := [shC], selected := {"p"} }

/-- Sample circle shape of radius 5: center (0,0), rim point (3,4). -/
def shD : Shape := { id := "e", type := .circle, x1 := 0, y1 := 0, x2 := 3, y2 := 4 }

/-- Sample square-root oracle that is exact at 25 (used by the offset
witness). -/
def sqrtO (q : ℚ) : ℚ := if q = 25 then 5 else 0

/-- Sample state: the rectangle shB with corners (-1,-1) and (1,1),
selected. -/
def stB : AppState := { shapes := [shB], selected := {"b"} }

/-- Sample line shape used by the mirror-involution counterexample: first
endpoint (0.000392, -0.00023).  All three roundings on its double-mirror path
land far from ties (the values to be rounded are 0.512, 4.516 and 4.6 in
rounding units), so floating-point evaluation of the source rounds exactly as
the rational model does. -/
def shE : Shape :=
  { id := "m", type := .line, x1 := 392/1000000, y1 := -23/100000, x2 := 0, y2 := 0 }

/-- Constant cosine oracle with value 0, the cosine of a quarter turn. -/
def cosO (q : ℚ) : ℚ := 0

/-- Constant sine oracle with value 1, the sine of a quarter turn. -/
def sinO (q : ℚ) : ℚ := 1

/-- Sample id supply. -/
def genO (n : ℕ) : String := "g".append (toString n)

/-! History lemmas shared by the undo/redo claims. -/

/-- Undo on a state whose undo stack ends in snapshot S restores S, drops the
snapshot, pushes the pre-undo collection on the redo stack and filters the
selection against S. -/
theorem handleUndo_of_concat (st : AppState) (H : List (List Shape))
    (S : List Shape) (hh : st.history = H ++ [S]) :
    (handleUndo st).shapes = S ∧ (handleUndo st).history = H ∧
    (handleUndo st).future = st.future ++ [st.shapes] ∧
    (handleUndo st).selected = st.selected.filter (fun i => ∃ s ∈ S, s.id = i) := by
  simp [handleUndo, hh, List.getLast?_concat, List.dropLast_concat]

/-- Redo on a state whose redo stack ends in snapshot S restores S. -/
theorem handleRedo_of_concat (st : AppState) (F : List (List Shape))
    (S : List Shape) (hf : st.future = F ++ [S]) :
    (handleRedo st).shapes = S ∧ (handleRedo st).future = F ∧
    (handleRedo st).history = st.history ++ [st.shapes] := by
  simp [handleRedo, hf, List.getLast?_concat, List.dropLast_concat]

/-- Every mutating operation, when its guard lets it fire, pushes exactly the
pre-operation collection onto the undo stack and clears the redo stack. -/
theorem applyOp_pushes (op : MutOp) (st : AppState) (h : op.guard st) :
    (applyOp op st).history = st.history ++ [st.shapes] ∧
    (applyOp op st).future = [] := by
  cases op with
  | addShape sh => constructor <;> simp [applyOp, handleShapeAdd, saveHistory]
  | duplicate gen =>
      simp only [MutOp.guard] at h
      constructor <;> simp [applyOp, handleDuplicate, saveHistory, h]
  | paste gen =>
      simp only [MutOp.guard] at h
      constructor <;> simp [applyOp, handlePaste, saveHistory, h]
  | linearPattern gen dir count spacing =>
      simp only [MutOp.guard] at h
      have h2 : ¬count < 2 := by omega
      constructor <;> simp [applyOp, handleLinearPattern, saveHistory, h.1, h2]
  | circularPattern cosQ sinQ piQ sqrtQ gen count cx cy =>
      simp only [MutOp.guard] at h
      have h2 : ¬count < 2 := by omega
      constructor <;>
        simp [applyOp, handleCircularPatternCenter, saveHistory, h.1, h2]
  | offsetOp sqrtQ gen dist =>
      simp only [MutOp.guard] at h
      simp only [applyOp, handleOffset]
      rw [if_neg h]
      split <;> simp [saveHistory]
  | mirrorOp atanQ gen lx1 ly1 lx2 ly2 =>
      constructor <;> simp [applyOp, performMirror, saveHistory]
  | nudge dx dy =>
      simp only [MutOp.guard] at h
      constructor <;> simp [applyOp, handleNudge, saveHistory, h]
  | deleteSel =>
      simp only [MutOp.guard] at h
      constructor <;> simp [applyOp, handleDelete, saveHistory, h]
  | propUpdate u =>
      simp only [MutOp.guard] at h
      constructor <;> simp [applyOp, updateSelectedProperty, saveHistory, h]

/-- C1.  For every state and every mutating operation X whose guard lets it
fire (shape add, duplicate, paste, linear pattern, circular pattern, offset,
mirror, nudge, delete, property update): undo immediately after X restores
exactly the pre-X shape collection; redo immediately after that undo restores
exactly the post-X collection; and any mutating operation fired after the undo
leaves an empty redo stack. -/
theorem C1_undo_redo_inverse (op : MutOp) (st : AppState) (h : op.guard st) :
    (handleUndo (applyOp op st)).shapes = st.shapes ∧
    (handleRedo (handleUndo (applyOp op st))).shapes = (applyOp op st).shapes ∧
    ∀ op2 : MutOp, op2.guard (handleUndo (applyOp op st)) →
      (applyOp op2 (handleUndo (applyOp op st))).future = [] := by
  obtain ⟨hh, hf⟩ := applyOp_pushes op st h
  obtain ⟨hu1, hu2, hu3, hu4⟩ := handleUndo_of_concat (applyOp op st) st.history st.shapes hh
  refine ⟨hu1, ?_, ?_⟩
  · have hfu : (handleUndo (applyOp op st)).future = [] ++ [(applyOp op st).shapes] := by
      rw [hu3, hf]
    exact (handleRedo_of_concat _ [] _ hfu).1
  · intro op2 hg
    exact (applyOp_pushes op2 _ hg).2

/-- Witness for C1 at a concrete input: deleting the selected shape of stA. -/
theorem C1_witness :
    MutOp.deleteSel.guard stA ∧
    (handleUndo (applyOp .deleteSel stA)).shapes = stA.shapes ∧
    (handleRedo (handleUndo (applyOp .deleteSel stA))).shapes =
      (applyOp .deleteSel stA).shapes := by
  have h : MutOp.deleteSel.guard stA := by
    simp only [MutOp.guard]; decide
  exact ⟨h, (C1_undo_redo_inverse .deleteSel stA h).1,
    (C1_undo_redo_inverse .deleteSel stA h).2.1⟩

/-- C7.  After an undo (resp. redo) that restores snapshot prev (resp. nxt),
the resulting collection is that snapshot and an id is selected exactly when
it was selected before and a shape with that id occurs in the restored
snapshot; in particular no new id is added. -/
theorem C7_selection_pruning (st : AppState) :
    (∀ prev, st.history.getLast? = some prev →
      (handleUndo st).shapes = prev ∧
      ∀ i, i ∈ (handleUndo st).selected ↔
        (i ∈ st.selected ∧ ∃ s ∈ prev, s.id = i)) ∧
    (∀ nxt, st.future.getLast? = some nxt →
      (handleRedo st).shapes = nxt ∧
      ∀ i, i ∈ (handleRedo st).selected ↔
        (i ∈ st.selected ∧ ∃ s ∈ nxt, s.id = i)) := by
  constructor
  · intro prev hl
    constructor
    · simp [handleUndo, hl]
    · intro i
      simp [handleUndo, hl, Finset.mem_filter]
  · intro nxt hl
    constructor
    · simp [handleRedo, hl]
    · intro i
      simp [handleRedo, hl, Finset.mem_filter]

/-- Witness for C7 at a concrete input: stU has undo snapshot [shA]; after
undo only the id a (whose shape is restored) stays selected, and the stale id
x is pruned. -/
theorem C7_witness :
    stU.history.getLast? = some [shA] ∧
    (handleUndo stU).shapes = [shA] ∧
    ("a" ∈ (handleUndo stU).selected ↔
      ("a" ∈ stU.selected ∧ ∃ s ∈ [shA], s.id = "a")) ∧
    ("x" ∈ (handleUndo stU).selected ↔
      ("x" ∈ stU.selected ∧ ∃ s ∈ [shA], s.id = "x")) :=
  ⟨rfl, ((C7_selection_pruning stU).1 [shA] rfl).1,
    ((C7_selection_pruning stU).1 [shA] rfl).2 "a",
    ((C7_selection_pruning stU).1 [shA] rfl).2 "x"⟩

/-- C10.  Undo on an empty undo stack is a complete no-op (shapes, selection
and both stacks unchanged), and redo on an empty redo stack likewise. -/
theorem C10_empty_stack_noop (st : AppState) :
    (st.history = [] → handleUndo st = st) ∧
    (st.future = [] → handleRedo st = st) := by
  constructor
  · intro h; simp [handleUndo, h]
  · intro h; simp [handleRedo, h]

/-- Witness for C10 at a concrete input: stA has empty history and future. -/
theorem C10_witness :
    stA.history = [] ∧ handleUndo stA = stA ∧
    stA.future = [] ∧ handleRedo stA = stA :=
  ⟨rfl, (C10_empty_stack_noop stA).1 rfl, rfl, (C10_empty_stack_noop stA).2 rfl⟩

/-! Bookkeeping lemmas for the linear pattern copies. -/

/-- The linear pattern makes exactly K copies per selected shape. -/
theorem linCopies_length (gen : ℕ → String) (K : ℕ) (dx dy : ℚ) :
    ∀ (l : List Shape) (k : ℕ),
      (linCopies gen k K dx dy l).length = l.length * K := by
  intro l
  induction l with
  | nil => intro k; simp [linCopies]
  | cons s rest ih =>
      intro k
      simp [linCopies, ih, Nat.succ_mul, Nat.add_comm]

/-- The ids of the linear pattern copies are the id supply applied to the
consecutive indices k, k+1, ..., in order. -/
theorem linCopies_map_id (gen : ℕ → String) (K : ℕ) (dx dy : ℚ) :
    ∀ (l : List Shape) (k : ℕ),
      (linCopies gen k K dx dy l).map Shape.id =
        (List.range' k (l.length * K)).map gen := by
  intro l
  induction l with
  | nil => intro k; simp [linCopies]
  | cons s rest ih =>
      intro k
      have h1 : ((List.range K).map (fun (i : ℕ) =>
          { translateShape (dx * ((i : ℚ) + 1)) (dy * ((i : ℚ) + 1)) s with
            id := gen (k + i) })).map Shape.id
          = (List.range' k K).map gen := by
        rw [List.range'_eq_map_range, List.map_map, List.map_map]
        rfl
      simp only [linCopies, List.map_append, ih, h1]
      rw [← List.map_append, List.range'_append_1]
      have h2 : rest.length * K + K = (s :: rest).length * K := by
        simp [Nat.succ_mul]
      rw [h2]

/-- The copy for selected shape j and step index i sits at position j*K+i of
the copy list, is the shape translated by (i+1) times the step vector, and
carries the fresh id of that position. -/
theorem linCopies_getElem (gen : ℕ → String) (K : ℕ) (dx dy : ℚ) :
    ∀ (l : List Shape) (k j i : ℕ), i < K →
      (linCopies gen k K dx dy l)[j * K + i]? =
        l[j]?.map (fun s =>
          { translateShape (dx * ((i : ℚ) + 1)) (dy * ((i : ℚ) + 1)) s with
            id := gen (k + j * K + i) }) := by
  intro l
  induction l with
  | nil => intro k j i hi; simp [linCopies]
  | cons s rest ih =>
      intro k j i hi
      have hblock : ((List.range K).map (fun (i : ℕ) =>
          { translateShape (dx * ((i : ℚ) + 1)) (dy * ((i : ℚ) + 1)) s with
            id := gen (k + i) })).length = K := by simp
      cases j with
      | zero =>
          simp only [linCopies, Nat.zero_mul, Nat.zero_add]
          rw [List.getElem?_append_left (by simpa [hblock] using hi)]
          simp [List.getElem?_map, List.getElem?_range hi]
      | succ j =>
          simp only [linCopies]
          have hidx : (j + 1) * K + i = K + (j * K + i) := by
            rw [Nat.succ_mul]; omega
          rw [hidx, List.getElem?_append_right (by simp [hblock])]
          simp only [hblock, Nat.add_sub_cancel_left]
          rw [ih (k + K) j i hi]
          have : k + K + j * K + i = k + (j + 1) * K + i := by
            rw [Nat.succ_mul]; omega
          simp [this]

/-- C2.  With a nonempty selection: a linear pattern with count below 2
changes nothing; with count at least 2 it appends exactly count-1 copies per
selected shape, the copy for shape j and index i (0-based; offsets
1x..(count-1)x the spacing along the chosen direction) being the shape with
every coordinate field present translated by (i+1) times the step vector and a
fresh id; the originals stay in place and stay selected together with all
copies; and when the id supply is injective and avoids the existing ids on the
consumed range, the copy ids are pairwise distinct and distinct from every
existing id. -/
theorem C2_linear_pattern (gen : ℕ → String) (dir : PatternDirection)
    (count : ℕ) (spacing : ℚ) (st : AppState) (hsel : st.selected ≠ ∅) :
    (count < 2 → handleLinearPattern gen dir count spacing st = st) ∧
    (2 ≤ count →
      (handleLinearPattern gen dir count spacing st).shapes =
        st.shapes ++ linCopies gen 0 (count - 1) (stepVec dir spacing).1
          (stepVec dir spacing).2 (selectedShapes st) ∧
      (linCopies gen 0 (count - 1) (stepVec dir spacing).1
          (stepVec dir spacing).2 (selectedShapes st)).length =
        (selectedShapes st).length * (count - 1) ∧
      (∀ j i, i < count - 1 →
        (linCopies gen 0 (count - 1) (stepVec dir spacing).1
            (stepVec dir spacing).2 (selectedShapes st))[j * (count - 1) + i]? =
          (selectedShapes st)[j]?.map (fun s =>
            { translateShape ((stepVec dir spacing).1 * ((i : ℚ) + 1))
                ((stepVec dir spacing).2 * ((i : ℚ) + 1)) s with
              id := gen (j * (count - 1) + i) })) ∧
      (handleLinearPattern gen dir count spacing st).selected =
        ((selectedShapes st).map Shape.id).toFinset ∪
        ((linCopies gen 0 (count - 1) (stepVec dir spacing).1
            (stepVec dir spacing).2 (selectedShapes st)).map Shape.id).toFinset ∧
      ((∀ m n, m < (selectedShapes st).length * (count - 1) →
          n < (selectedShapes st).length * (count - 1) → gen m = gen n → m = n) →
        ((linCopies gen 0 (count - 1) (stepVec dir spacing).1
            (stepVec dir spacing).2 (selectedShapes st)).map Shape.id).Nodup) ∧
      ((∀ m, m < (selectedShapes st).length * (count - 1) →
          ∀ t ∈ st.shapes, gen m ≠ t.id) →
        ∀ c ∈ linCopies gen 0 (count - 1) (stepVec dir spacing).1
            (stepVec dir spacing).2 (selectedShapes st),
          ∀ t ∈ st.shapes, c.id ≠ t.id)) := by
  constructor
  · intro hlt
    simp [handleLinearPattern, hlt]
  · intro hge
    have hlt : ¬count < 2 := by omega
    refine ⟨?_, linCopies_length gen (count - 1) _ _ (selectedShapes st) 0, ?_, ?_, ?_, ?_⟩
    · simp [handleLinearPattern, hsel, hlt]
    · intro j i hi
      have h := linCopies_getElem gen (count - 1) (stepVec dir spacing).1
        (stepVec dir spacing).2 (selectedShapes st) 0 j i hi
      simpa using h
    · simp [handleLinearPattern, hsel, hlt]
    · intro hinj
      rw [linCopies_map_id]
      refine List.Nodup.map_on ?_ (List.nodup_range' 0 _)
      intro x hx y hy hxy
      rw [List.mem_range'] at hx hy
      obtain ⟨ix, hix, hxe⟩ := hx
      obtain ⟨iy, hiy, hye⟩ := hy
      exact hinj x y (by omega) (by omega) hxy
    · intro havoid c hc t ht
      have hid : c.id ∈ (linCopies gen 0 (count - 1) (stepVec dir spacing).1
          (stepVec dir spacing).2 (selectedShapes st)).map Shape.id :=
        List.mem_map_of_mem Shape.id hc
      rw [linCopies_map_id] at hid
      obtain ⟨m, hm, hme⟩ := List.mem_map.mp hid
      rw [List.mem_range'] at hm
      obtain ⟨im, him, hmeq⟩ := hm
      rw [← hme]
      exact havoid m (by omega) t ht

/-- Witness for C2 at a concrete input: the single selected line of stA,
pattern direction vertical, count 3, spacing 2. -/
theorem C2_witness :
    stA.selected ≠ ∅ ∧
    (2 ≤ 3 ∧
      (handleLinearPattern (fun n => "c".append (toString n)) .vertical 3 2 stA).shapes =
        stA.shapes ++ linCopies (fun n => "c".append (toString n)) 0 2 0 2
          (selectedShapes stA) ∧
      (linCopies (fun n => "c".append (toString n)) 0 2 0 2
          (selectedShapes stA)).length = (selectedShapes stA).length * 2) := by
  have hsel : stA.selected ≠ ∅ := by decide
  have h := C2_linear_pattern (fun n => "c".append (toString n)) .vertical 3 2 stA hsel
  have h2 := h.2 (by omega)
  refine ⟨hsel, by omega, ?_, ?_⟩
  · have := h2.1
    simpa [stepVec] using this
  · have := h2.2.1
    simpa [stepVec] using this

/-! Bookkeeping lemmas for duplicate and paste copies. -/

/-- Duplicate and paste make exactly one copy per source shape. -/
theorem dupList_length (gen : ℕ → String) :
    ∀ (l : List Shape) (k : ℕ), (dupList gen k l).length = l.length := by
  intro l
  induction l with
  | nil => intro k; simp [dupList]
  | cons s rest ih => intro k; simp [dupList, ih]

/-- The ids of the duplicate/paste copies are the id supply applied to
consecutive indices. -/
theorem dupList_map_id (gen : ℕ → String) :
    ∀ (l : List Shape) (k : ℕ),
      (dupList gen k l).map Shape.id = (List.range' k l.length).map gen := by
  intro l
  induction l with
  | nil => intro k; simp [dupList]
  | cons s rest ih =>
      intro k
      simp [dupList, ih, List.range'_succ, dupShape]

/-- The j-th copy is the j-th source shape passed through dupShape with the
j-th fresh id. -/
theorem dupList_getElem (gen : ℕ → String) :
    ∀ (l : List Shape) (k j : ℕ),
      (dupList gen k l)[j]? = l[j]?.map (dupShape (gen (k + j))) := by
  intro l
  induction l with
  | nil => intro k j; simp [dupList]
  | cons s rest ih =>
      intro k j
      cases j with
      | zero => simp [dupList]
      | succ j =>
          simp only [dupList, List.getElem?_cons_succ]
          rw [ih (k + 1) j]
          have : k + 1 + j = k + (j + 1) := by omega
          rw [this]

/-- Counterexample to C9 as stated: duplicating the selected bezier shape shC,
whose control point cx1 is present with value 0, yields a copy whose cx1 is
still 0 rather than the claimed 0 + 2 (the source guards the shift with a
truthiness test, which 0 fails). -/
theorem C9_counterexample :
    shC.cx1 = some 0 ∧
    ((handleDuplicate (fun n => "d".append (toString n)) stC).shapes.map
      Shape.cx1) = [some 0, some 0] ∧
    (some (0 : ℚ) ≠ some (0 + 2 : ℚ)) := by
  refine ⟨rfl, ?_, by norm_num⟩
  decide

/-- C9 as amended.  With a nonempty selection (nonempty clipboard for paste),
duplicate (paste) appends exactly one copy per source shape and selects
exactly the copies; each copy shifts both endpoints and every point-list point
by (+2,-2); control points are shifted only on bezier and measure shapes and
only when the component value is nonzero, and the label anchor is never
shifted; the originals are left unchanged in place; and under the id-supply
assumptions every copy id is fresh and the copy ids are pairwise distinct. -/
theorem C9_duplicate_paste (gen : ℕ → String) (st : AppState) :
    (st.selected ≠ ∅ →
      (handleDuplicate gen st).shapes =
        st.shapes ++ dupList gen 0 (selectedShapes st) ∧
      (dupList gen 0 (selectedShapes st)).length = (selectedShapes st).length ∧
      (∀ j, (dupList gen 0 (selectedShapes st))[j]? =
        (selectedShapes st)[j]?.map (dupShape (gen j))) ∧
      (handleDuplicate gen st).selected =
        ((dupList gen 0 (selectedShapes st)).map Shape.id).toFinset ∧
      ((∀ m n, m < (selectedShapes st).length → n < (selectedShapes st).length →
          gen m = gen n → m = n) →
        ((dupList gen 0 (selectedShapes st)).map Shape.id).Nodup) ∧
      ((∀ m, m < (selectedShapes st).length → ∀ t ∈ st.shapes, gen m ≠ t.id) →
        ∀ c ∈ dupList gen 0 (selectedShapes st), ∀ t ∈ st.shapes, c.id ≠ t.id)) ∧
    (st.clipboard ≠ [] →
      (handlePaste gen st).shapes = st.shapes ++ dupList gen 0 st.clipboard ∧
      (handlePaste gen st).selected =
        ((dupList gen 0 st.clipboard).map Shape.id).toFinset ∧
      (∀ j, (dupList gen 0 st.clipboard)[j]? =
        st.clipboard[j]?.map (dupShape (gen j)))) ∧
    (∀ nid s, (dupShape nid s).id = nid ∧
      (dupShape nid s).x1 = s.x1 + 2 ∧ (dupShape nid s).y1 = s.y1 - 2 ∧
      (dupShape nid s).x2 = s.x2 + 2 ∧ (dupShape nid s).y2 = s.y2 - 2 ∧
      (dupShape nid s).points =
        s.points.map (List.map (fun p => (p.1 + 2, p.2 - 2))) ∧
      ((s.type = .bezier ∨ s.type = .measure) →
        (dupShape nid s).cx1 = offsetNZ 2 s.cx1 ∧
        (dupShape nid s).cy1 = offsetNZ (-2) s.cy1 ∧
        (dupShape nid s).cx2 = offsetNZ 2 s.cx2 ∧
        (dupShape nid s).cy2 = offsetNZ (-2) s.cy2) ∧
      (¬(s.type = .bezier ∨ s.type = .measure) →
        (dupShape nid s).cx1 = s.cx1 ∧ (dupShape nid s).cy1 = s.cy1 ∧
        (dupShape nid s).cx2 = s.cx2 ∧ (dupShape nid s).cy2 = s.cy2) ∧
      (dupShape nid s).textX = s.textX ∧ (dupShape nid s).textY = s.textY) := by
  refine ⟨?_, ?_, ?_⟩
  · intro hsel
    refine ⟨by simp [handleDuplicate, hsel], dupList_length gen _ 0,
      fun j => by simpa using dupList_getElem gen (selectedShapes st) 0 j,
      by simp [handleDuplicate, hsel], ?_, ?_⟩
    · intro hinj
      rw [dupList_map_id]
      refine List.Nodup.map_on ?_ (List.nodup_range' 0 _)
      intro x hx y hy hxy
      rw [List.mem_range'] at hx hy
      obtain ⟨ix, hix, hxe⟩ := hx
      obtain ⟨iy, hiy, hye⟩ := hy
      exact hinj x y (by omega) (by omega) hxy
    · intro havoid c hc t ht
      have hid : c.id ∈ (dupList gen 0 (selectedShapes st)).map Shape.id :=
        List.mem_map_of_mem Shape.id hc
      rw [dupList_map_id] at hid
      obtain ⟨m, hm, hme⟩ := List.mem_map.mp hid
      rw [List.mem_range'] at hm
      obtain ⟨im, him, hmeq⟩ := hm
      rw [← hme]
      exact havoid m (by omega) t ht
  · intro hclip
    exact ⟨by simp [handlePaste, hclip], by simp [handlePaste, hclip],
      fun j => by simpa using dupList_getElem gen st.clipboard 0 j⟩
  · intro nid s
    refine ⟨rfl, rfl, rfl, rfl, rfl, rfl, ?_, ?_, rfl, rfl⟩
    · intro h
      simp [dupShape, if_pos h]
    · intro h
      simp [dupShape, if_neg h]

/-- Witness for C9 at a concrete input: duplicating the selected line of stA
and pasting a one-shape clipboard. -/
theorem C9_witness :
    stA.selected ≠ ∅ ∧
    (handleDuplicate (fun n => "d".append (toString n)) stA).shapes =
      stA.shapes ++ dupList (fun n => "d".append (toString n)) 0 (selectedShapes stA) ∧
    (dupShape "d0" shA).x1 = shA.x1 + 2 := by
  have hsel : stA.selected ≠ ∅ := by decide
  have h := C9_duplicate_paste (fun n => "d".append (toString n)) stA
  exact ⟨hsel, (h.1 hsel).1, (h.2.2 "d0" shA).2.1⟩

/-! Offset (inset) claim. -/

/-- C4.  Per selected shape, with the square-root oracle exact at the circle
radicand: a circle yields a copy with the same center and radius r - d exactly
when r - d > 0; a rect or round_rect yields a copy with all four normalized
edges moved inward by d exactly when the resulting width and height are both
positive; an ellipse yields a copy with both radii reduced by d exactly when
both stay positive; every other type is skipped; and every produced shape has
strictly positive extent, so no non-positive width, height or radius is ever
produced (offsetShape is the per-shape kernel that handleOffset folds over the
selection, and it is total, so no error is raised). -/
theorem C4_offset_inset (sqrtQ : ℚ → ℚ) (dist : ℚ) (nid : String) (s : Shape)
    (hsq : (sqrtQ ((s.x2 - s.x1) ^ 2 + (s.y2 - s.y1) ^ 2)) ^ 2 =
        (s.x2 - s.x1) ^ 2 + (s.y2 - s.y1) ^ 2 ∧
      0 ≤ sqrtQ ((s.x2 - s.x1) ^ 2 + (s.y2 - s.y1) ^ 2)) :
    (s.type = .circle →
      ((offsetShape sqrtQ dist nid s).isSome ↔
        0 < sqrtQ ((s.x2 - s.x1) ^ 2 + (s.y2 - s.y1) ^ 2) - dist) ∧
      ∀ t, offsetShape sqrtQ dist nid s = some t →
        t.type = .circle ∧ t.x1 = s.x1 ∧ t.y1 = s.y1 ∧
        (t.x2 - t.x1) ^ 2 + (t.y2 - t.y1) ^ 2 =
          (sqrtQ ((s.x2 - s.x1) ^ 2 + (s.y2 - s.y1) ^ 2) - dist) ^ 2 ∧
        0 < sqrtQ ((s.x2 - s.x1) ^ 2 + (s.y2 - s.y1) ^ 2) - dist) ∧
    ((s.type = .rect ∨ s.type = .round_rect) →
      ((offsetShape sqrtQ dist nid s).isSome ↔
        dist + dist < max s.x1 s.x2 - min s.x1 s.x2 ∧
        dist + dist < max s.y1 s.y2 - min s.y1 s.y2) ∧
      ∀ t, offsetShape sqrtQ dist nid s = some t →
        t.type = s.type ∧
        t.x1 = min s.x1 s.x2 + dist ∧ t.y1 = min s.y1 s.y2 + dist ∧
        t.x2 = max s.x1 s.x2 - dist ∧ t.y2 = max s.y1 s.y2 - dist ∧
        0 < t.x2 - t.x1 ∧ 0 < t.y2 - t.y1) ∧
    (s.type = .ellipse →
      ((offsetShape sqrtQ dist nid s).isSome ↔
        dist < |s.x2 - s.x1| ∧ dist < |s.y2 - s.y1|) ∧
      ∀ t, offsetShape sqrtQ dist nid s = some t →
        t.type = .ellipse ∧ t.x1 = s.x1 ∧ t.y1 = s.y1 ∧
        |t.x2 - t.x1| = |s.x2 - s.x1| - dist ∧
        |t.y2 - t.y1| = |s.y2 - s.y1| - dist ∧
        0 < |t.x2 - t.x1| ∧ 0 < |t.y2 - t.y1|) ∧
    ((s.type ≠ .rect ∧ s.type ≠ .round_rect ∧ s.type ≠ .circle ∧
        s.type ≠ .ellipse) →
      offsetShape sqrtQ dist nid s = none) := by
  obtain ⟨hsq1, hsq2⟩ := hsq
  refine ⟨?_, ?_, ?_, ?_⟩
  · intro h
    have hnr : ¬(s.type = .rect ∨ s.type = .round_rect) := by simp [h]
    by_cases hpos : 0 < sqrtQ ((s.x2 - s.x1) ^ 2 + (s.y2 - s.y1) ^ 2) - dist
    · refine ⟨by simp [offsetShape, hnr, h, hpos], ?_⟩
      intro t ht
      simp only [offsetShape, if_neg hnr, if_pos h, if_pos hpos,
        Option.some.injEq] at ht
      by_cases hd : s.x2 - s.x1 = 0 ∧ s.y2 - s.y1 = 0
      · simp only [if_pos hd] at ht
        subst ht
        refine ⟨h, rfl, rfl, ?_, hpos⟩
        show (s.x1 + (sqrtQ ((s.x2 - s.x1) ^ 2 + (s.y2 - s.y1) ^ 2) - dist) * 1
            - s.x1) ^ 2 +
          (s.y1 + (sqrtQ ((s.x2 - s.x1) ^ 2 + (s.y2 - s.y1) ^ 2) - dist) * 0
            - s.y1) ^ 2 = _
        ring
      · simp only [if_neg hd] at ht
        subst ht
        refine ⟨h, rfl, rfl, ?_, hpos⟩
        have hv0 : (s.x2 - s.x1) ^ 2 + (s.y2 - s.y1) ^ 2 ≠ 0 := by
          intro hz
          exact hd ⟨by nlinarith [sq_nonneg (s.x2 - s.x1), sq_nonneg (s.y2 - s.y1)],
            by nlinarith [sq_nonneg (s.x2 - s.x1), sq_nonneg (s.y2 - s.y1)]⟩
        have hr2 : sqrtQ ((s.x2 - s.x1) ^ 2 + (s.y2 - s.y1) ^ 2) ^ 2 ≠ 0 := by
          rw [hsq1]; exact hv0
        show (s.x1 + (sqrtQ ((s.x2 - s.x1) ^ 2 + (s.y2 - s.y1) ^ 2) - dist) *
            ((s.x2 - s.x1) / sqrtQ ((s.x2 - s.x1) ^ 2 + (s.y2 - s.y1) ^ 2))
            - s.x1) ^ 2 +
          (s.y1 + (sqrtQ ((s.x2 - s.x1) ^ 2 + (s.y2 - s.y1) ^ 2) - dist) *
            ((s.y2 - s.y1) / sqrtQ ((s.x2 - s.x1) ^ 2 + (s.y2 - s.y1) ^ 2))
            - s.y1) ^ 2 = _
        calc (s.x1 + (sqrtQ ((s.x2 - s.x1) ^ 2 + (s.y2 - s.y1) ^ 2) - dist) *
              ((s.x2 - s.x1) / sqrtQ ((s.x2 - s.x1) ^ 2 + (s.y2 - s.y1) ^ 2))
              - s.x1) ^ 2 +
            (s.y1 + (sqrtQ ((s.x2 - s.x1) ^ 2 + (s.y2 - s.y1) ^ 2) - dist) *
              ((s.y2 - s.y1) / sqrtQ ((s.x2 - s.x1) ^ 2 + (s.y2 - s.y1) ^ 2))
              - s.y1) ^ 2
              = (sqrtQ ((s.x2 - s.x1) ^ 2 + (s.y2 - s.y1) ^ 2) - dist) ^ 2 *
                (((s.x2 - s.x1) ^ 2 + (s.y2 - s.y1) ^ 2) /
                  sqrtQ ((s.x2 - s.x1) ^ 2 + (s.y2 - s.y1) ^ 2) ^ 2) := by
                ring
          _ = (sqrtQ ((s.x2 - s.x1) ^ 2 + (s.y2 - s.y1) ^ 2) - dist) ^ 2 := by
                have hdiv : ((s.x2 - s.x1) ^ 2 + (s.y2 - s.y1) ^ 2) /
                    sqrtQ ((s.x2 - s.x1) ^ 2 + (s.y2 - s.y1) ^ 2) ^ 2 = 1 := by
                  rw [hsq1]
                  exact div_self hv0
                rw [hdiv, mul_one]
    · refine ⟨by simp [offsetShape, hnr, h, hpos], ?_⟩
      intro t ht
      simp [offsetShape, hnr, h, hpos] at ht
  · intro h
    constructor
    · by_cases hc : min s.x1 s.x2 + dist < max s.x1 s.x2 - dist ∧
          min s.y1 s.y2 + dist < max s.y1 s.y2 - dist
      · simp only [offsetShape, if_pos h, if_pos hc]
        exact iff_of_true (by simp) ⟨by linarith [hc.1], by linarith [hc.2]⟩
      · simp only [offsetShape, if_pos h, if_neg hc]
        exact iff_of_false (by simp)
          (fun hcon => hc ⟨by linarith [hcon.1], by linarith [hcon.2]⟩)
    · intro t ht
      simp only [offsetShape, if_pos h] at ht
      by_cases hc : min s.x1 s.x2 + dist < max s.x1 s.x2 - dist ∧
          min s.y1 s.y2 + dist < max s.y1 s.y2 - dist
      · rw [if_pos hc, Option.some.injEq] at ht
        subst ht
        refine ⟨rfl, rfl, rfl, rfl, rfl, ?_, ?_⟩
        · show 0 < (max s.x1 s.x2 - dist) - (min s.x1 s.x2 + dist)
          linarith [hc.1]
        · show 0 < (max s.y1 s.y2 - dist) - (min s.y1 s.y2 + dist)
          linarith [hc.2]
      · rw [if_neg hc] at ht
        simp at ht
  · intro h
    have hnr : ¬(s.type = .rect ∨ s.type = .round_rect) := by simp [h]
    have hnc : ¬(s.type = .circle) := by simp [h]
    constructor
    · by_cases hc : 0 < |s.x2 - s.x1| - dist ∧ 0 < |s.y2 - s.y1| - dist
      · simp only [offsetShape, if_neg hnr, if_neg hnc, if_pos h, if_pos hc]
        exact iff_of_true (by simp) ⟨by linarith [hc.1], by linarith [hc.2]⟩
      · simp only [offsetShape, if_neg hnr, if_neg hnc, if_pos h, if_neg hc]
        exact iff_of_false (by simp)
          (fun hcon => hc ⟨by linarith [hcon.1], by linarith [hcon.2]⟩)
    · intro t ht
      simp only [offsetShape, if_neg hnr, if_neg hnc, if_pos h] at ht
      by_cases hc : 0 < |s.x2 - s.x1| - dist ∧ 0 < |s.y2 - s.y1| - dist
      swap
      · rw [if_neg hc] at ht
        simp at ht
      · rw [if_pos hc, Option.some.injEq] at ht
        subst ht
        have habs : ∀ (c : Prop) (inst : Decidable c) (v : ℚ), 0 < v →
            |(if c then (1 : ℚ) else -1) * v| = v := by
          intro c inst v hv
          split_ifs <;> simp [abs_mul, abs_of_pos hv]
        have ex : s.x1 + (if s.x1 ≤ s.x2 then (1 : ℚ) else -1) *
            (|s.x2 - s.x1| - dist) - s.x1 =
            (if s.x1 ≤ s.x2 then (1 : ℚ) else -1) * (|s.x2 - s.x1| - dist) := by
          ring
        have ey : s.y1 + (if s.y1 ≤ s.y2 then (1 : ℚ) else -1) *
            (|s.y2 - s.y1| - dist) - s.y1 =
            (if s.y1 ≤ s.y2 then (1 : ℚ) else -1) * (|s.y2 - s.y1| - dist) := by
          ring
        refine ⟨h, rfl, rfl, ?_, ?_, ?_, ?_⟩
        · show |s.x1 + (if s.x1 ≤ s.x2 then (1 : ℚ) else -1) *
            (|s.x2 - s.x1| - dist) - s.x1| = |s.x2 - s.x1| - dist
          rw [ex, habs _ _ _ (by linarith [hc.1])]
        · show |s.y1 + (if s.y1 ≤ s.y2 then (1 : ℚ) else -1) *
            (|s.y2 - s.y1| - dist) - s.y1| = |s.y2 - s.y1| - dist
          rw [ey, habs _ _ _ (by linarith [hc.2])]
        · show 0 < |s.x1 + (if s.x1 ≤ s.x2 then (1 : ℚ) else -1) *
            (|s.x2 - s.x1| - dist) - s.x1|
          rw [ex, habs _ _ _ (by linarith [hc.1])]
          linarith [hc.1]
        · show 0 < |s.y1 + (if s.y1 ≤ s.y2 then (1 : ℚ) else -1) *
            (|s.y2 - s.y1| - dist) - s.y1|
          rw [ey, habs _ _ _ (by linarith [hc.2])]
          linarith [hc.2]
  · intro ⟨h1, h2, h3, h4⟩
    simp [offsetShape, h1, h2, h3, h4]

/-- Witness for C4 at a concrete input: offsetting the radius-5 circle shD by
distance 1 produces a shape (radius 4 > 0), with the exact square-root oracle
sqrtO. -/
theorem C4_witness :
    ((sqrtO ((shD.x2 - shD.x1) ^ 2 + (shD.y2 - shD.y1) ^ 2)) ^ 2 =
        (shD.x2 - shD.x1) ^ 2 + (shD.y2 - shD.y1) ^ 2 ∧
      0 ≤ sqrtO ((shD.x2 - shD.x1) ^ 2 + (shD.y2 - shD.y1) ^ 2)) ∧
    shD.type = .circle ∧
    ((offsetShape sqrtO 1 "o" shD).isSome ↔
      0 < sqrtO ((shD.x2 - shD.x1) ^ 2 + (shD.y2 - shD.y1) ^ 2) - 1) := by
  have hsq : (sqrtO ((shD.x2 - shD.x1) ^ 2 + (shD.y2 - shD.y1) ^ 2)) ^ 2 =
      (shD.x2 - shD.x1) ^ 2 + (shD.y2 - shD.y1) ^ 2 ∧
      0 ≤ sqrtO ((shD.x2 - shD.x1) ^ 2 + (shD.y2 - shD.y1) ^ 2) := by
    norm_num [sqrtO, shD]
  exact ⟨hsq, rfl, ((C4_offset_inset sqrtO 1 "o" shD hsq).1 rfl).1⟩

/-! Degenerate mirror line claim. -/

/-- C8.  The reflection function of the mirror operation returns every input
point unchanged when the two endpoints of the mirror line coincide, and more
generally whenever the squared length of the line is zero, so the division by
the squared length is never performed on zero and every produced coordinate is
a well-defined rational (the rational model has no NaN; the source guard
returns the input point before the division can produce NaN). -/
theorem C8_degenerate_mirror_identity :
    (∀ lx ly px py : ℚ, reflectPoint lx ly lx ly px py = (px, py)) ∧
    (∀ lx1 ly1 lx2 ly2 px py : ℚ,
      (lx2 - lx1) ^ 2 + (ly2 - ly1) ^ 2 = 0 →
      reflectPoint lx1 ly1 lx2 ly2 px py = (px, py)) := by
  constructor
  · intro lx ly px py
    simp [reflectPoint]
  · intro lx1 ly1 lx2 ly2 px py h
    have hx : lx2 - lx1 = 0 := by
      nlinarith [sq_nonneg (lx2 - lx1), sq_nonneg (ly2 - ly1)]
    have hy : ly2 - ly1 = 0 := by
      nlinarith [sq_nonneg (lx2 - lx1), sq_nonneg (ly2 - ly1)]
    simp [reflectPoint, hx, hy]

/-- Witness for C8 at a concrete input: the zero-length line at (1,2) leaves
(5,7) unchanged. -/
theorem C8_witness :
    ((1 : ℚ) - 1) ^ 2 + ((2 : ℚ) - 2) ^ 2 = 0 ∧
    reflectPoint 1 2 1 2 5 7 = (5, 7) :=
  ⟨by norm_num, C8_degenerate_mirror_identity.2 1 2 1 2 5 7 (by norm_num)⟩

/-! Circular pattern claims. -/

/-- Counterexample to the concrete instance in C3: the rectangle with corners
(-1,-1) and (1,1) patterned about pivot (3,0) with count 4 produces a first
copy whose center is (3,-3), not the (0,3) asserted by the claim (rotating
(0,0) a quarter turn about (3,0) gives (3,-3); (0,3) is not on the radius-3
circle about the pivot at all).  The trig oracles are the constants
cos = 0, sin = 1, the true values at the quarter-turn angle used by the first
copy. -/
theorem C3_counterexample :
    ((handleCircularPatternCenter cosO sinO 0 sqrtO genO 4 3 0 stB).shapes[2]?).map
      (fun c => (((c.x1 + c.x2) / 2 : ℚ), ((c.y1 + c.y2) / 2 : ℚ))) =
      some ((3 : ℚ), (-3 : ℚ)) ∧
    ((3 : ℚ), (-3 : ℚ)) ≠ ((0 : ℚ), (3 : ℚ)) := by
  constructor
  · have hg : ¬(stB.selected = ∅ ∨ 4 < 2) := by decide
    have hss : selectedShapes stB = [shB] := by
      simp [selectedShapes, stB, shB]
    simp only [handleCircularPatternCenter, if_neg hg, hss]
    norm_num [listMin, listMax, circCopies, circCopy, rotOpt, rotatePoint,
      cosO, sinO, sqrtO, genO, shB, stB, isBoxBased, isCenterAnchored,
      saveHistory, List.range_succ]
  · intro h
    rw [Prod.ext_iff] at h
    norm_num at h

/-- C3 as amended.  In a circular pattern, every box-based copy (circCopy is
the loop body of handleCircularPatternCenter) has its own center equal to the
original center rotated about the pivot by the copy angle, its x and y extents
(hence width, height and radius handle) unchanged, its rotation field equal to
the original rotation plus the copy angle, and its control points and label
anchor rotated about the shape's own pre-rotation center rather than the
pivot; in particular the rect with corners (-1,-1),(1,1) patterned about pivot
(3,0) with count 4 produces a first copy with center (3,-3) (not (0,3)),
width and height both 2, and rotation 2*pi/4. -/
theorem C3_circular_box_rotation (cosQ sinQ : ℚ → ℚ) (cx cy : ℚ)
    (nid : String) (angle : ℚ) (s : Shape)
    (hbox : isBoxBased s.type = true) :
    shapeCenter (circCopy cosQ sinQ cx cy nid angle s) =
      rotatePoint cosQ sinQ (shapeCenter s).1 (shapeCenter s).2 cx cy angle ∧
    (circCopy cosQ sinQ cx cy nid angle s).x2 -
      (circCopy cosQ sinQ cx cy nid angle s).x1 = s.x2 - s.x1 ∧
    (circCopy cosQ sinQ cx cy nid angle s).y2 -
      (circCopy cosQ sinQ cx cy nid angle s).y1 = s.y2 - s.y1 ∧
    (circCopy cosQ sinQ cx cy nid angle s).rotation =
      some (s.rotation.getD 0 + angle) ∧
    (circCopy cosQ sinQ cx cy nid angle s).type = s.type ∧
    (∀ a b, s.cx1 = some a → s.cy1 = some b →
      (circCopy cosQ sinQ cx cy nid angle s).cx1 =
        some (rotatePoint cosQ sinQ a b (shapeCenter s).1 (shapeCenter s).2 angle).1 ∧
      (circCopy cosQ sinQ cx cy nid angle s).cy1 =
        some (rotatePoint cosQ sinQ a b (shapeCenter s).1 (shapeCenter s).2 angle).2) ∧
    (∀ a b, s.cx2 = some a → s.cy2 = some b →
      (circCopy cosQ sinQ cx cy nid angle s).cx2 =
        some (rotatePoint cosQ sinQ a b (shapeCenter s).1 (shapeCenter s).2 angle).1 ∧
      (circCopy cosQ sinQ cx cy nid angle s).cy2 =
        some (rotatePoint cosQ sinQ a b (shapeCenter s).1 (shapeCenter s).2 angle).2) ∧
    (∀ a b, s.textX = some a → s.textY = some b →
      (circCopy cosQ sinQ cx cy nid angle s).textX =
        some (rotatePoint cosQ sinQ a b (shapeCenter s).1 (shapeCenter s).2 angle).1 ∧
      (circCopy cosQ sinQ cx cy nid angle s).textY =
        some (rotatePoint cosQ sinQ a b (shapeCenter s).1 (shapeCenter s).2 angle).2) ∧
    (∀ (piQ : ℚ) (gen : ℕ → String),
      cosQ (2 * piQ / 4) = 0 → sinQ (2 * piQ / 4) = 1 →
      ((handleCircularPatternCenter cosQ sinQ piQ sqrtO gen 4 3 0 stB).shapes[2]?).map
        (fun c => (((c.x1 + c.x2) / 2 : ℚ), ((c.y1 + c.y2) / 2 : ℚ),
          (c.x2 - c.x1 : ℚ), (c.y2 - c.y1 : ℚ), c.rotation)) =
        some (3, -3, 2, 2, some (2 * piQ / 4))) := by
  by_cases hca : isCenterAnchored s.type = true
  · refine ⟨?_, ?_, ?_, ?_, ?_, ?_, ?_, ?_, ?_⟩
    · simp [circCopy, hbox, hca, shapeCenter, rotOpt]
    · simp [circCopy, hbox, hca]
    · simp [circCopy, hbox, hca]
    · simp [circCopy, hbox, hca]
    · simp [circCopy, hbox, hca]
    · intro a b ha hb
      simp [circCopy, hbox, hca, rotOpt, ha, hb, shapeCenter]
    · intro a b ha hb
      simp [circCopy, hbox, hca, rotOpt, ha, hb, shapeCenter]
    · intro a b ha hb
      simp [circCopy, hbox, hca, rotOpt, ha, hb, shapeCenter]
    · intro piQ gen hcos hsin
      have hg : ¬(stB.selected = ∅ ∨ 4 < 2) := by decide
      have hss : selectedShapes stB = [shB] := by
        simp [selectedShapes, stB, shB]
      simp only [handleCircularPatternCenter, if_neg hg, hss]
      norm_num [listMin, listMax, circCopies, circCopy, rotOpt, rotatePoint,
        shB, stB, isBoxBased, isCenterAnchored, saveHistory, List.range_succ,
        hcos, hsin]
  · refine ⟨?_, ?_, ?_, ?_, ?_, ?_, ?_, ?_, ?_⟩
    · simp only [circCopy, hbox, if_pos, if_neg hca, shapeCenter]
      simp [rotatePoint, Prod.ext_iff]
    · simp [circCopy, hbox, hca]
    · simp [circCopy, hbox, hca]
    · simp [circCopy, hbox, hca]
    · simp [circCopy, hbox, hca]
    · intro a b ha hb
      simp [circCopy, hbox, hca, rotOpt, ha, hb, shapeCenter]
    · intro a b ha hb
      simp [circCopy, hbox, hca, rotOpt, ha, hb, shapeCenter]
    · intro a b ha hb
      simp [circCopy, hbox, hca, rotOpt, ha, hb, shapeCenter]
    · intro piQ gen hcos hsin
      have hg : ¬(stB.selected = ∅ ∨ 4 < 2) := by decide
      have hss : selectedShapes stB = [shB] := by
        simp [selectedShapes, stB, shB]
      simp only [handleCircularPatternCenter, if_neg hg, hss]
      norm_num [listMin, listMax, circCopies, circCopy, rotOpt, rotatePoint,
        shB, stB, isBoxBased, isCenterAnchored, saveHistory, List.range_succ,
        hcos, hsin]

/-- Witness for C3 at a concrete input: the rect shB rotated about (3,0), and
the corrected concrete pattern instance with the quarter-turn oracles. -/
theorem C3_witness :
    isBoxBased shB.type = true ∧
    shapeCenter (circCopy cosO sinO 3 0 "g1" 0 shB) =
      rotatePoint cosO sinO (shapeCenter shB).1 (shapeCenter shB).2 3 0 0 ∧
    cosO (2 * 0 / 4) = 0 ∧ sinO (2 * 0 / 4) = 1 ∧
    ((handleCircularPatternCenter cosO sinO 0 sqrtO genO 4 3 0 stB).shapes[2]?).map
      (fun c => (((c.x1 + c.x2) / 2 : ℚ), ((c.y1 + c.y2) / 2 : ℚ),
        (c.x2 - c.x1 : ℚ), (c.y2 - c.y1 : ℚ), c.rotation)) =
      some (3, -3, 2, 2, some (2 * 0 / 4)) := by
  have h := C3_circular_box_rotation cosO sinO 3 0 "g1" 0 shB (by decide)
  exact ⟨by decide, h.1, rfl, rfl, h.2.2.2.2.2.2.2.2 0 genO rfl rfl⟩

/-- The circular pattern makes exactly K rotated copies per selected shape. -/
theorem circCopies_length (cosQ sinQ : ℚ → ℚ) (cx cy : ℚ) (gen : ℕ → String)
    (K : ℕ) (step : ℚ) :
    ∀ (l : List Shape) (k : ℕ),
      (circCopies cosQ sinQ cx cy gen k K step l).length = l.length * K := by
  intro l
  induction l with
  | nil => intro k; simp [circCopies]
  | cons s rest ih =>
      intro k
      simp [circCopies, ih, Nat.succ_mul, Nat.add_comm]

/-- An empty current selection makes the selected-shape list empty. -/
theorem selectedShapes_of_empty (st : AppState) (he : st.selected = ∅) :
    selectedShapes st = [] := by
  unfold selectedShapes
  rw [he]
  simp

/-- C6.  If the selection is empty or the count is below 2, the circular
pattern changes nothing.  Otherwise (stated for a selection that matches at
least one shape) it appends exactly one dashed guide circle marked isGuide and
centered at the clicked pivot, whose rim handle offset is the oracle square
root of the squared distance from the selection bounding-box center to the
pivot (so, when the oracle is exact there, the radius is that distance), plus
exactly count-1 copies per selected shape at angles (i+1) times 2*pi/count,
selects originals plus copies, and resets the mode to pan. -/
theorem C6_circular_pattern_guide (cosQ sinQ : ℚ → ℚ) (piQ : ℚ)
    (sqrtQ : ℚ → ℚ) (gen : ℕ → String) (count : ℕ) (cx cy : ℚ)
    (st : AppState) :
    (st.selected = ∅ ∨ count < 2 →
      handleCircularPatternCenter cosQ sinQ piQ sqrtQ gen count cx cy st = st) ∧
    (selectedShapes st ≠ [] → 2 ≤ count →
      (handleCircularPatternCenter cosQ sinQ piQ sqrtQ gen count cx cy st).mode
        = .pan ∧
      (handleCircularPatternCenter cosQ sinQ piQ sqrtQ gen count cx cy st).shapes
        = st.shapes ++
          (({ id := gen 0, type := .circle, x1 := cx, y1 := cy,
              x2 := cx + sqrtQ
                (((listMin (fun s => min s.x1 s.x2) (selectedShapes st) +
                    listMax (fun s => max s.x1 s.x2) (selectedShapes st)) / 2
                    - cx) ^ 2 +
                  ((listMin (fun s => min s.y1 s.y2) (selectedShapes st) +
                    listMax (fun s => max s.y1 s.y2) (selectedShapes st)) / 2
                    - cy) ^ 2),
              y2 := cy, style := .dashed, arrow := .none, lineWidth := 1,
              strokeColor := "#94a3b8", fillColor := "none",
              isGuide := true } : Shape) ::
            circCopies cosQ sinQ cx cy (fun n => gen (n + 1)) 0 (count - 1)
              (2 * piQ / (count : ℚ)) (selectedShapes st)) ∧
      (circCopies cosQ sinQ cx cy (fun n => gen (n + 1)) 0 (count - 1)
          (2 * piQ / (count : ℚ)) (selectedShapes st)).length =
        (selectedShapes st).length * (count - 1) ∧
      (handleCircularPatternCenter cosQ sinQ piQ sqrtQ gen count cx cy st).selected
        = ((selectedShapes st).map Shape.id).toFinset ∪
          ((circCopies cosQ sinQ cx cy (fun n => gen (n + 1)) 0 (count - 1)
            (2 * piQ / (count : ℚ)) (selectedShapes st)).map Shape.id).toFinset ∧
      ((sqrtQ (((listMin (fun s => min s.x1 s.x2) (selectedShapes st) +
            listMax (fun s => max s.x1 s.x2) (selectedShapes st)) / 2 - cx) ^ 2 +
          ((listMin (fun s => min s.y1 s.y2) (selectedShapes st) +
            listMax (fun s => max s.y1 s.y2) (selectedShapes st)) / 2 - cy) ^ 2)) ^ 2
          = ((listMin (fun s => min s.x1 s.x2) (selectedShapes st) +
              listMax (fun s => max s.x1 s.x2) (selectedShapes st)) / 2 - cx) ^ 2 +
            ((listMin (fun s => min s.y1 s.y2) (selectedShapes st) +
              listMax (fun s => max s.y1 s.y2) (selectedShapes st)) / 2 - cy) ^ 2 →
        0 ≤ sqrtQ (((listMin (fun s => min s.x1 s.x2) (selectedShapes st) +
            listMax (fun s => max s.x1 s.x2) (selectedShapes st)) / 2 - cx) ^ 2 +
          ((listMin (fun s => min s.y1 s.y2) (selectedShapes st) +
            listMax (fun s => max s.y1 s.y2) (selectedShapes st)) / 2 - cy) ^ 2) →
        ∀ g : Shape,
          g.x1 = cx ∧ g.y1 = cy ∧
          g.x2 = cx + sqrtQ (((listMin (fun s => min s.x1 s.x2) (selectedShapes st) +
              listMax (fun s => max s.x1 s.x2) (selectedShapes st)) / 2 - cx) ^ 2 +
            ((listMin (fun s => min s.y1 s.y2) (selectedShapes st) +
              listMax (fun s => max s.y1 s.y2) (selectedShapes st)) / 2 - cy) ^ 2) ∧
          g.y2 = cy →
          (g.x2 - g.x1) ^ 2 + (g.y2 - g.y1) ^ 2 =
            ((listMin (fun s => min s.x1 s.x2) (selectedShapes st) +
              listMax (fun s => max s.x1 s.x2) (selectedShapes st)) / 2 - cx) ^ 2 +
            ((listMin (fun s => min s.y1 s.y2) (selectedShapes st) +
              listMax (fun s => max s.y1 s.y2) (selectedShapes st)) / 2 - cy) ^ 2 ∧
          0 ≤ g.x2 - g.x1)) := by
  constructor
  · intro h
    simp only [handleCircularPatternCenter, if_pos h]
  · intro hss h2
    have hsel : st.selected ≠ ∅ := fun he => hss (selectedShapes_of_empty st he)
    have hguard : ¬(st.selected = ∅ ∨ count < 2) := by
      push_neg
      exact ⟨hsel, by omega⟩
    refine ⟨?_, ?_, circCopies_length cosQ sinQ cx cy _ _ _ (selectedShapes st) 0,
      ?_, ?_⟩
    · simp [handleCircularPatternCenter, if_neg hguard]
    · simp [handleCircularPatternCenter, if_neg hguard]
    · simp [handleCircularPatternCenter, if_neg hguard]
    · intro hsq1 hsq2 g ⟨hg1, hg2, hg3, hg4⟩
      constructor
      · rw [hg1, hg2, hg3, hg4]
        have e : cx + sqrtQ (((listMin (fun s => min s.x1 s.x2) (selectedShapes st) +
            listMax (fun s => max s.x1 s.x2) (selectedShapes st)) / 2 - cx) ^ 2 +
            ((listMin (fun s => min s.y1 s.y2) (selectedShapes st) +
              listMax (fun s => max s.y1 s.y2) (selectedShapes st)) / 2 - cy) ^ 2)
            - cx = sqrtQ (((listMin (fun s => min s.x1 s.x2) (selectedShapes st) +
            listMax (fun s => max s.x1 s.x2) (selectedShapes st)) / 2 - cx) ^ 2 +
            ((listMin (fun s => min s.y1 s.y2) (selectedShapes st) +
              listMax (fun s => max s.y1 s.y2) (selectedShapes st)) / 2 - cy) ^ 2) := by
          ring
        rw [e, sub_self, hsq1]
        ring
      · rw [hg1, hg3]
        linarith [hsq2]

/-- Witness for C6 at a concrete input: circular pattern on the selected rect
shB, count 2, pivot (3,0). -/
theorem C6_witness :
    selectedShapes stB ≠ [] ∧ 2 ≤ 2 ∧
    (handleCircularPatternCenter cosO sinO 0 sqrtO genO 2 3 0 stB).mode
      = .pan ∧
    (circCopies cosO sinO 3 0 (fun n => genO (n + 1)) 0 (2 - 1)
        (2 * 0 / ((2 : ℕ) : ℚ)) (selectedShapes stB)).length =
      (selectedShapes stB).length * (2 - 1) := by
  have hss : selectedShapes stB ≠ [] := by decide
  have h := (C6_circular_pattern_guide cosO sinO 0 sqrtO genO 2 3 0 stB).2
    hss (by omega)
  exact ⟨hss, by omega, h.1, h.2.2.1⟩

/-! Mirror involution: rounding and reflection lemmas. -/

/-- The 4-decimal rounding moves a value by at most 1/20000. -/
theorem jround_close (q : ℚ) : |jround q - q| ≤ 1 / 20000 := by
  unfold jround
  rw [abs_le]
  constructor
  · have h1 : (q * 10000 + 1 / 2) - 1 < (⌊q * 10000 + 1 / 2⌋ : ℚ) :=
      Int.sub_one_lt_floor _
    linarith
  · have h2 : (⌊q * 10000 + 1 / 2⌋ : ℚ) ≤ q * 10000 + 1 / 2 := Int.floor_le _
    linarith

/-- The reflection coefficients of a nondegenerate line form a unit vector. -/
theorem reflect_norm (dx dy : ℚ) (h : ¬(dx = 0 ∧ dy = 0)) :
    ((dx * dx - dy * dy) / (dx * dx + dy * dy)) ^ 2 +
      (2 * dx * dy / (dx * dx + dy * dy)) ^ 2 = 1 := by
  have hS : dx * dx + dy * dy ≠ 0 := by
    intro hz
    exact h ⟨by nlinarith [mul_self_nonneg dx, mul_self_nonneg dy],
      by nlinarith [mul_self_nonneg dx, mul_self_nonneg dy]⟩
  field_simp
  ring

/-- A unit vector has coordinate absolute values summing to at most 3/2. -/
theorem abs_sum_le_of_sq_one (a b : ℚ) (h : a ^ 2 + b ^ 2 = 1) :
    |a| + |b| ≤ 3 / 2 := by
  nlinarith [sq_nonneg (|a| - |b|), sq_nonneg (|a| + |b| - 3 / 2),
    sq_abs a, sq_abs b, abs_nonneg a, abs_nonneg b]

/-- Rounding a value that sits within an (a,b)-combination of two rounding
errors of a base point stays within 1/8000 of the base point. -/
theorem jround_affine_close (a b p u v : ℚ) (hab : |a| + |b| ≤ 3 / 2)
    (hu : |u| ≤ 1 / 20000) (hv : |v| ≤ 1 / 20000) :
    |jround (p + a * u + b * v) - p| ≤ 1 / 8000 := by
  have h1 := jround_close (p + a * u + b * v)
  have h2 : |a * u + b * v| ≤ |a| * |u| + |b| * |v| := by
    calc |a * u + b * v| ≤ |a * u| + |b * v| := abs_add _ _
      _ = |a| * |u| + |b| * |v| := by rw [abs_mul, abs_mul]
  have h3 : |a| * |u| ≤ |a| * (1 / 20000) :=
    mul_le_mul_of_nonneg_left hu (abs_nonneg a)
  have h4 : |b| * |v| ≤ |b| * (1 / 20000) :=
    mul_le_mul_of_nonneg_left hv (abs_nonneg b)
  have h5 : |jround (p + a * u + b * v) - p| ≤
      |jround (p + a * u + b * v) - (p + a * u + b * v)| +
      |(p + a * u + b * v) - p| := abs_sub_le _ _ _
  have h6 : (p + a * u + b * v) - p = a * u + b * v := by ring
  rw [h6] at h5
  nlinarith [abs_nonneg a, abs_nonneg b]

/-- Core bound: reflecting twice with a unit coefficient pair, rounding after
each reflection, lands within 1/8000 of the start in each coordinate. -/
theorem refl2_bound (a b lx1 ly1 px py : ℚ) (hab : a ^ 2 + b ^ 2 = 1) :
    |jround (a * (jround (a * (px - lx1) + b * (py - ly1) + lx1) - lx1) +
        b * (jround (b * (px - lx1) - a * (py - ly1) + ly1) - ly1) + lx1) - px|
      ≤ 1 / 8000 ∧
    |jround (b * (jround (a * (px - lx1) + b * (py - ly1) + lx1) - lx1) -
        a * (jround (b * (px - lx1) - a * (py - ly1) + ly1) - ly1) + ly1) - py|
      ≤ 1 / 8000 := by
  have habs := abs_sum_le_of_sq_one a b hab
  have hu := jround_close (a * (px - lx1) + b * (py - ly1) + lx1)
  have hv := jround_close (b * (px - lx1) - a * (py - ly1) + ly1)
  constructor
  · have e : a * (jround (a * (px - lx1) + b * (py - ly1) + lx1) - lx1) +
        b * (jround (b * (px - lx1) - a * (py - ly1) + ly1) - ly1) + lx1 =
        px + a * (jround (a * (px - lx1) + b * (py - ly1) + lx1) -
            (a * (px - lx1) + b * (py - ly1) + lx1)) +
          b * (jround (b * (px - lx1) - a * (py - ly1) + ly1) -
            (b * (px - lx1) - a * (py - ly1) + ly1)) := by
      linear_combination (px - lx1) * hab
    rw [e]
    exact jround_affine_close a b px _ _ habs hu hv
  · have e : b * (jround (a * (px - lx1) + b * (py - ly1) + lx1) - lx1) -
        a * (jround (b * (px - lx1) - a * (py - ly1) + ly1) - ly1) + ly1 =
        py + b * (jround (a * (px - lx1) + b * (py - ly1) + lx1) -
            (a * (px - lx1) + b * (py - ly1) + lx1)) +
          (-a) * (jround (b * (px - lx1) - a * (py - ly1) + ly1) -
            (b * (px - lx1) - a * (py - ly1) + ly1)) := by
      linear_combination (py - ly1) * hab
    rw [e]
    refine jround_affine_close b (-a) py _ _ ?_ hu hv
    rw [abs_neg]
    linarith

/-- Double reflection across a nondegenerate line (with rounding) returns each
coordinate to within 1/8000 of its original value. -/
theorem mirror2_close (lx1 ly1 lx2 ly2 px py : ℚ)
    (hline : ¬(lx2 - lx1 = 0 ∧ ly2 - ly1 = 0)) :
    |(reflectPoint lx1 ly1 lx2 ly2 (reflectPoint lx1 ly1 lx2 ly2 px py).1
        (reflectPoint lx1 ly1 lx2 ly2 px py).2).1 - px| ≤ 1 / 8000 ∧
    |(reflectPoint lx1 ly1 lx2 ly2 (reflectPoint lx1 ly1 lx2 ly2 px py).1
        (reflectPoint lx1 ly1 lx2 ly2 px py).2).2 - py| ≤ 1 / 8000 := by
  have hnorm := reflect_norm (lx2 - lx1) (ly2 - ly1) hline
  simp only [reflectPoint, if_neg hline]
  exact refl2_bound _ _ lx1 ly1 px py hnorm

/-- qClose is reflexive. -/
theorem qClose_refl (u : ℚ) : qClose u u := by simp [qClose]

/-- optClose is reflexive. -/
theorem optClose_refl (o : Option ℚ) : optClose o o := by
  cases o <;> simp [optClose, qClose_refl]

/-- pointsClose is reflexive. -/
theorem pointsClose_refl (o : Option (List (ℚ × ℚ))) : pointsClose o o := by
  cases o with
  | none => simp [pointsClose]
  | some l =>
      simp only [pointsClose]
      induction l with
      | nil => exact List.Forall₂.nil
      | cons p r ih => exact List.Forall₂.cons ⟨qClose_refl _, qClose_refl _⟩ ih

/-- Twice-reflected point lists are pointwise close to the original. -/
theorem pointsClose_map2 (lx1 ly1 lx2 ly2 : ℚ)
    (hline : ¬(lx2 - lx1 = 0 ∧ ly2 - ly1 = 0)) (l : List (ℚ × ℚ)) :
    List.Forall₂ (fun u v => qClose u.1 v.1 ∧ qClose u.2 v.2)
      ((l.map (fun p => reflectPoint lx1 ly1 lx2 ly2 p.1 p.2)).map
        (fun p => reflectPoint lx1 ly1 lx2 ly2 p.1 p.2)) l := by
  induction l with
  | nil => simp
  | cons p r ih =>
      simp only [List.map_cons, List.forall₂_cons]
      exact ⟨⟨(mirror2_close lx1 ly1 lx2 ly2 p.1 p.2 hline).1,
        (mirror2_close lx1 ly1 lx2 ly2 p.1 p.2 hline).2⟩, ih⟩

/-- The mirrored copy of a point-based shape, as an explicit record. -/
theorem mirrorShape_point_eq (lx1 ly1 lx2 ly2 lineAngle : ℚ) (nid : String)
    (s : Shape) (h : isBoxBased s.type = false) :
    mirrorShape lx1 ly1 lx2 ly2 lineAngle nid s = { s with
      id := nid,
      x1 := (reflectPoint lx1 ly1 lx2 ly2 s.x1 s.y1).1,
      y1 := (reflectPoint lx1 ly1 lx2 ly2 s.x1 s.y1).2,
      x2 := (reflectPoint lx1 ly1 lx2 ly2 s.x2 s.y2).1,
      y2 := (reflectPoint lx1 ly1 lx2 ly2 s.x2 s.y2).2,
      cx1 := (reflOpt lx1 ly1 lx2 ly2 s.cx1 s.cy1).1,
      cy1 := (reflOpt lx1 ly1 lx2 ly2 s.cx1 s.cy1).2,
      cx2 := (reflOpt lx1 ly1 lx2 ly2 s.cx2 s.cy2).1,
      cy2 := (reflOpt lx1 ly1 lx2 ly2 s.cx2 s.cy2).2,
      points := s.points.map (List.map
        (fun p => reflectPoint lx1 ly1 lx2 ly2 p.1 p.2)) } := by
  simp [mirrorShape, h]

/-- The mirrored copy of a rect or round_rect, as an explicit record. -/
theorem mirrorShape_rect_eq (lx1 ly1 lx2 ly2 lineAngle : ℚ) (nid : String)
    (s : Shape) (h : s.type = .rect ∨ s.type = .round_rect) :
    mirrorShape lx1 ly1 lx2 ly2 lineAngle nid s = { s with
      id := nid,
      x1 := (reflectPoint lx1 ly1 lx2 ly2 ((s.x1 + s.x2) / 2)
        ((s.y1 + s.y2) / 2)).1 - |s.x2 - s.x1| / 2,
      x2 := (reflectPoint lx1 ly1 lx2 ly2 ((s.x1 + s.x2) / 2)
        ((s.y1 + s.y2) / 2)).1 + |s.x2 - s.x1| / 2,
      y1 := (reflectPoint lx1 ly1 lx2 ly2 ((s.x1 + s.x2) / 2)
        ((s.y1 + s.y2) / 2)).2 - |s.y2 - s.y1| / 2,
      y2 := (reflectPoint lx1 ly1 lx2 ly2 ((s.x1 + s.x2) / 2)
        ((s.y1 + s.y2) / 2)).2 + |s.y2 - s.y1| / 2,
      rotation := some (2 * lineAngle - s.rotation.getD 0),
      textX := (reflOpt lx1 ly1 lx2 ly2 s.textX s.textY).1,
      textY := (reflOpt lx1 ly1 lx2 ly2 s.textX s.textY).2 } := by
  have hb : isBoxBased s.type = true := by rcases h with h | h <;> rw [h] <;> rfl
  have harc : ¬s.type = .arc := by rcases h with h | h <;> simp [h]
  have htx : ¬s.type = .text := by rcases h with h | h <;> simp [h]
  simp [mirrorShape, hb, if_pos h, harc, htx]

/-- The mirrored copy of a circle or ellipse, as an explicit record. -/
theorem mirrorShape_ce_eq (lx1 ly1 lx2 ly2 lineAngle : ℚ) (nid : String)
    (s : Shape) (h : s.type = .circle ∨ s.type = .ellipse) :
    mirrorShape lx1 ly1 lx2 ly2 lineAngle nid s = { s with
      id := nid,
      x1 := (reflectPoint lx1 ly1 lx2 ly2 s.x1 s.y1).1,
      y1 := (reflectPoint lx1 ly1 lx2 ly2 s.x1 s.y1).2,
      x2 := (reflectPoint lx1 ly1 lx2 ly2 s.x2 s.y2).1,
      y2 := (reflectPoint lx1 ly1 lx2 ly2 s.x2 s.y2).2,
      rotation := some (2 * lineAngle - s.rotation.getD 0),
      textX := (reflOpt lx1 ly1 lx2 ly2 s.textX s.textY).1,
      textY := (reflOpt lx1 ly1 lx2 ly2 s.textX s.textY).2 } := by
  have hb : isBoxBased s.type = true := by rcases h with h | h <;> rw [h] <;> rfl
  have hnr : ¬(s.type = .rect ∨ s.type = .round_rect) := by
    rcases h with h | h <;> simp [h]
  have harc : ¬s.type = .arc := by rcases h with h | h <;> simp [h]
  have htx : ¬s.type = .text := by rcases h with h | h <;> simp [h]
  simp [mirrorShape, hb, hnr, harc, htx]

/-- The mirrored copy of an arc, as an explicit record. -/
theorem mirrorShape_arc_eq (lx1 ly1 lx2 ly2 lineAngle : ℚ) (nid : String)
    (s : Shape) (h : s.type = .arc) :
    mirrorShape lx1 ly1 lx2 ly2 lineAngle nid s = { s with
      id := nid,
      x1 := (reflectPoint lx1 ly1 lx2 ly2 s.x1 s.y1).1,
      y1 := (reflectPoint lx1 ly1 lx2 ly2 s.x1 s.y1).2,
      x2 := (reflectPoint lx1 ly1 lx2 ly2 s.x2 s.y2).1,
      y2 := (reflectPoint lx1 ly1 lx2 ly2 s.x2 s.y2).2,
      rotation := some (2 * lineAngle - s.rotation.getD 0),
      startAngle := some (2 * lineAngle - s.endAngle.getD 0),
      endAngle := some (2 * lineAngle - s.startAngle.getD 0),
      textX := (reflOpt lx1 ly1 lx2 ly2 s.textX s.textY).1,
      textY := (reflOpt lx1 ly1 lx2 ly2 s.textX s.textY).2 } := by
  have hnr : ¬(s.type = .rect ∨ s.type = .round_rect) := by simp [h]
  have htx : ¬s.type = .text := by simp [h]
  simp [mirrorShape, isBoxBased, hnr, h, htx]

/-- The mirrored copy of a text label, as an explicit record. -/
theorem mirrorShape_text_eq (lx1 ly1 lx2 ly2 lineAngle : ℚ) (nid : String)
    (s : Shape) (h : s.type = .text) :
    mirrorShape lx1 ly1 lx2 ly2 lineAngle nid s = { s with
      id := nid,
      x1 := (reflectPoint lx1 ly1 lx2 ly2 s.x1 s.y1).1,
      y1 := (reflectPoint lx1 ly1 lx2 ly2 s.x1 s.y1).2,
      x2 := (reflectPoint lx1 ly1 lx2 ly2 s.x1 s.y1).1,
      y2 := (reflectPoint lx1 ly1 lx2 ly2 s.x1 s.y1).2,
      rotation := some (2 * lineAngle - s.rotation.getD 0),
      textX := (reflOpt lx1 ly1 lx2 ly2 s.textX s.textY).1,
      textY := (reflOpt lx1 ly1 lx2 ly2 s.textX s.textY).2 } := by
  have hnr : ¬(s.type = .rect ∨ s.type = .round_rect) := by simp [h]
  have harc : ¬s.type = .arc := by simp [h]
  simp [mirrorShape, isBoxBased, hnr, harc, h]

/-- Twice-reflecting an optional coordinate pair lands close to the original
first component. -/
theorem reflOpt2_close_fst (lx1 ly1 lx2 ly2 : ℚ)
    (hline : ¬(lx2 - lx1 = 0 ∧ ly2 - ly1 = 0)) (ox oy : Option ℚ) :
    optClose (reflOpt lx1 ly1 lx2 ly2 (reflOpt lx1 ly1 lx2 ly2 ox oy).1
      (reflOpt lx1 ly1 lx2 ly2 ox oy).2).1 ox := by
  cases ox with
  | none => cases oy <;> simp [reflOpt, optClose]
  | some a =>
      cases oy with
      | none => simp [reflOpt, optClose, qClose_refl]
      | some b =>
          simp only [reflOpt, optClose]
          exact (mirror2_close lx1 ly1 lx2 ly2 a b hline).1

/-- Twice-reflecting an optional coordinate pair lands close to the original
second component. -/
theorem reflOpt2_close_snd (lx1 ly1 lx2 ly2 : ℚ)
    (hline : ¬(lx2 - lx1 = 0 ∧ ly2 - ly1 = 0)) (ox oy : Option ℚ) :
    optClose (reflOpt lx1 ly1 lx2 ly2 (reflOpt lx1 ly1 lx2 ly2 ox oy).1
      (reflOpt lx1 ly1 lx2 ly2 ox oy).2).2 oy := by
  cases ox with
  | none => cases oy <;> simp [reflOpt, optClose, qClose_refl]
  | some a =>
      cases oy with
      | none => simp [reflOpt, optClose]
      | some b =>
          simp only [reflOpt, optClose]
          exact (mirror2_close lx1 ly1 lx2 ly2 a b hline).2

/-- Mirror round-trip for point-based shapes. -/
theorem mirror2Shape_point (lx1 ly1 lx2 ly2 lineAngle : ℚ) (id1 id2 : String)
    (s : Shape) (hline : ¬(lx2 - lx1 = 0 ∧ ly2 - ly1 = 0))
    (h : isBoxBased s.type = false) :
    mirrorClose (mirrorShape lx1 ly1 lx2 ly2 lineAngle id2
      (mirrorShape lx1 ly1 lx2 ly2 lineAngle id1 s)) s := by
  rw [mirrorShape_point_eq lx1 ly1 lx2 ly2 lineAngle id1 s h]
  rw [mirrorShape_point_eq lx1 ly1 lx2 ly2 lineAngle id2]
  swap
  · exact h
  unfold mirrorClose
  dsimp only
  refine ⟨(mirror2_close lx1 ly1 lx2 ly2 s.x1 s.y1 hline).1,
    (mirror2_close lx1 ly1 lx2 ly2 s.x1 s.y1 hline).2,
    (mirror2_close lx1 ly1 lx2 ly2 s.x2 s.y2 hline).1,
    (mirror2_close lx1 ly1 lx2 ly2 s.x2 s.y2 hline).2,
    reflOpt2_close_fst lx1 ly1 lx2 ly2 hline s.cx1 s.cy1,
    reflOpt2_close_snd lx1 ly1 lx2 ly2 hline s.cx1 s.cy1,
    reflOpt2_close_fst lx1 ly1 lx2 ly2 hline s.cx2 s.cy2,
    reflOpt2_close_snd lx1 ly1 lx2 ly2 hline s.cx2 s.cy2,
    optClose_refl s.textX, optClose_refl s.textY, ?_, rfl, ?_⟩
  · cases hp : s.points with
    | none => simp [pointsClose]
    | some l =>
        simp only [Option.map_some']
        simp only [pointsClose]
        exact pointsClose_map2 lx1 ly1 lx2 ly2 hline l
  · intro harc
    rw [harc] at h
    simp [isBoxBased] at h

/-- Mirror round-trip for circles and ellipses. -/
theorem mirror2Shape_ce (lx1 ly1 lx2 ly2 lineAngle : ℚ) (id1 id2 : String)
    (s : Shape) (hline : ¬(lx2 - lx1 = 0 ∧ ly2 - ly1 = 0))
    (h : s.type = .circle ∨ s.type = .ellipse) :
    mirrorClose (mirrorShape lx1 ly1 lx2 ly2 lineAngle id2
      (mirrorShape lx1 ly1 lx2 ly2 lineAngle id1 s)) s := by
  rw [mirrorShape_ce_eq lx1 ly1 lx2 ly2 lineAngle id1 s h]
  rw [mirrorShape_ce_eq lx1 ly1 lx2 ly2 lineAngle id2]
  swap
  · exact h
  unfold mirrorClose
  dsimp only
  refine ⟨(mirror2_close lx1 ly1 lx2 ly2 s.x1 s.y1 hline).1,
    (mirror2_close lx1 ly1 lx2 ly2 s.x1 s.y1 hline).2,
    (mirror2_close lx1 ly1 lx2 ly2 s.x2 s.y2 hline).1,
    (mirror2_close lx1 ly1 lx2 ly2 s.x2 s.y2 hline).2,
    optClose_refl s.cx1, optClose_refl s.cy1,
    optClose_refl s.cx2, optClose_refl s.cy2,
    reflOpt2_close_fst lx1 ly1 lx2 ly2 hline s.textX s.textY,
    reflOpt2_close_snd lx1 ly1 lx2 ly2 hline s.textX s.textY,
    pointsClose_refl s.points, ?_, ?_⟩
  · simp only [Option.getD_some]
    ring
  · intro harc
    rcases h with h | h <;> rw [harc] at h <;> exact absurd h (by decide)

/-- Mirror round-trip for arcs, including the sweep-angle swap-back. -/
theorem mirror2Shape_arc (lx1 ly1 lx2 ly2 lineAngle : ℚ) (id1 id2 : String)
    (s : Shape) (hline : ¬(lx2 - lx1 = 0 ∧ ly2 - ly1 = 0))
    (h : s.type = .arc) :
    mirrorClose (mirrorShape lx1 ly1 lx2 ly2 lineAngle id2
      (mirrorShape lx1 ly1 lx2 ly2 lineAngle id1 s)) s := by
  rw [mirrorShape_arc_eq lx1 ly1 lx2 ly2 lineAngle id1 s h]
  rw [mirrorShape_arc_eq lx1 ly1 lx2 ly2 lineAngle id2]
  swap
  · exact h
  unfold mirrorClose
  dsimp only
  refine ⟨(mirror2_close lx1 ly1 lx2 ly2 s.x1 s.y1 hline).1,
    (mirror2_close lx1 ly1 lx2 ly2 s.x1 s.y1 hline).2,
    (mirror2_close lx1 ly1 lx2 ly2 s.x2 s.y2 hline).1,
    (mirror2_close lx1 ly1 lx2 ly2 s.x2 s.y2 hline).2,
    optClose_refl s.cx1, optClose_refl s.cy1,
    optClose_refl s.cx2, optClose_refl s.cy2,
    reflOpt2_close_fst lx1 ly1 lx2 ly2 hline s.textX s.textY,
    reflOpt2_close_snd lx1 ly1 lx2 ly2 hline s.textX s.textY,
    pointsClose_refl s.points, ?_, ?_⟩
  · simp only [Option.getD_some]
    ring
  · intro harc
    constructor <;> simp only [Option.getD_some] <;> ring

/-- Mirror round-trip for text labels with duplicated anchor. -/
theorem mirror2Shape_text (lx1 ly1 lx2 ly2 lineAngle : ℚ) (id1 id2 : String)
    (s : Shape) (hline : ¬(lx2 - lx1 = 0 ∧ ly2 - ly1 = 0))
    (h : s.type = .text) (hxy : s.x2 = s.x1 ∧ s.y2 = s.y1) :
    mirrorClose (mirrorShape lx1 ly1 lx2 ly2 lineAngle id2
      (mirrorShape lx1 ly1 lx2 ly2 lineAngle id1 s)) s := by
  rw [mirrorShape_text_eq lx1 ly1 lx2 ly2 lineAngle id1 s h]
  rw [mirrorShape_text_eq lx1 ly1 lx2 ly2 lineAngle id2]
  swap
  · exact h
  unfold mirrorClose
  dsimp only
  refine ⟨(mirror2_close lx1 ly1 lx2 ly2 s.x1 s.y1 hline).1,
    (mirror2_close lx1 ly1 lx2 ly2 s.x1 s.y1 hline).2, ?_, ?_,
    optClose_refl s.cx1, optClose_refl s.cy1,
    optClose_refl s.cx2, optClose_refl s.cy2,
    reflOpt2_close_fst lx1 ly1 lx2 ly2 hline s.textX s.textY,
    reflOpt2_close_snd lx1 ly1 lx2 ly2 hline s.textX s.textY,
    pointsClose_refl s.points, ?_, ?_⟩
  · rw [hxy.1]
    exact (mirror2_close lx1 ly1 lx2 ly2 s.x1 s.y1 hline).1
  · rw [hxy.2]
    exact (mirror2_close lx1 ly1 lx2 ly2 s.x1 s.y1 hline).2
  · simp only [Option.getD_some]
    ring
  · intro harc
    rw [harc] at h
    exact absurd h (by decide)

/-- Mirror round-trip for rects and round rects with normalized corners. -/
theorem mirror2Shape_rect (lx1 ly1 lx2 ly2 lineAngle : ℚ) (id1 id2 : String)
    (s : Shape) (hline : ¬(lx2 - lx1 = 0 ∧ ly2 - ly1 = 0))
    (h : s.type = .rect ∨ s.type = .round_rect)
    (hxy : s.x1 ≤ s.x2 ∧ s.y1 ≤ s.y2) :
    mirrorClose (mirrorShape lx1 ly1 lx2 ly2 lineAngle id2
      (mirrorShape lx1 ly1 lx2 ly2 lineAngle id1 s)) s := by
  rw [mirrorShape_rect_eq lx1 ly1 lx2 ly2 lineAngle id1 s h]
  rw [mirrorShape_rect_eq lx1 ly1 lx2 ly2 lineAngle id2]
  swap
  · exact h
  unfold mirrorClose
  dsimp only
  have hm := mirror2_close lx1 ly1 lx2 ly2 ((s.x1 + s.x2) / 2)
    ((s.y1 + s.y2) / 2) hline
  have hw : |s.x2 - s.x1| = s.x2 - s.x1 := abs_of_nonneg (by linarith [hxy.1])
  have hg : |s.y2 - s.y1| = s.y2 - s.y1 := abs_of_nonneg (by linarith [hxy.2])
  have ex : ((reflectPoint lx1 ly1 lx2 ly2 ((s.x1 + s.x2) / 2)
      ((s.y1 + s.y2) / 2)).1 - |s.x2 - s.x1| / 2 +
      ((reflectPoint lx1 ly1 lx2 ly2 ((s.x1 + s.x2) / 2)
      ((s.y1 + s.y2) / 2)).1 + |s.x2 - s.x1| / 2)) / 2 =
      (reflectPoint lx1 ly1 lx2 ly2 ((s.x1 + s.x2) / 2)
      ((s.y1 + s.y2) / 2)).1 := by ring
  have ey : ((reflectPoint lx1 ly1 lx2 ly2 ((s.x1 + s.x2) / 2)
      ((s.y1 + s.y2) / 2)).2 - |s.y2 - s.y1| / 2 +
      ((reflectPoint lx1 ly1 lx2 ly2 ((s.x1 + s.x2) / 2)
      ((s.y1 + s.y2) / 2)).2 + |s.y2 - s.y1| / 2)) / 2 =
      (reflectPoint lx1 ly1 lx2 ly2 ((s.x1 + s.x2) / 2)
      ((s.y1 + s.y2) / 2)).2 := by ring
  have ew : (reflectPoint lx1 ly1 lx2 ly2 ((s.x1 + s.x2) / 2)
      ((s.y1 + s.y2) / 2)).1 + |s.x2 - s.x1| / 2 -
      ((reflectPoint lx1 ly1 lx2 ly2 ((s.x1 + s.x2) / 2)
      ((s.y1 + s.y2) / 2)).1 - |s.x2 - s.x1| / 2) = |s.x2 - s.x1| := by ring
  have eg : (reflectPoint lx1 ly1 lx2 ly2 ((s.x1 + s.x2) / 2)
      ((s.y1 + s.y2) / 2)).2 + |s.y2 - s.y1| / 2 -
      ((reflectPoint lx1 ly1 lx2 ly2 ((s.x1 + s.x2) / 2)
      ((s.y1 + s.y2) / 2)).2 - |s.y2 - s.y1| / 2) = |s.y2 - s.y1| := by ring
  rw [ex, ey, ew, eg, abs_abs, abs_abs]
  have keyA : ∀ X : ℚ, |X - (s.x1 + s.x2) / 2| ≤ 1 / 8000 →
      |X - |s.x2 - s.x1| / 2 - s.x1| ≤ 1 / 8000 := by
    intro X hX
    rw [hw]
    have e : X - (s.x2 - s.x1) / 2 - s.x1 = X - (s.x1 + s.x2) / 2 := by ring
    rw [e]
    exact hX
  have keyB : ∀ X : ℚ, |X - (s.x1 + s.x2) / 2| ≤ 1 / 8000 →
      |X + |s.x2 - s.x1| / 2 - s.x2| ≤ 1 / 8000 := by
    intro X hX
    rw [hw]
    have e : X + (s.x2 - s.x1) / 2 - s.x2 = X - (s.x1 + s.x2) / 2 := by ring
    rw [e]
    exact hX
  have keyC : ∀ X : ℚ, |X - (s.y1 + s.y2) / 2| ≤ 1 / 8000 →
      |X - |s.y2 - s.y1| / 2 - s.y1| ≤ 1 / 8000 := by
    intro X hX
    rw [hg]
    have e : X - (s.y2 - s.y1) / 2 - s.y1 = X - (s.y1 + s.y2) / 2 := by ring
    rw [e]
    exact hX
  have keyD : ∀ X : ℚ, |X - (s.y1 + s.y2) / 2| ≤ 1 / 8000 →
      |X + |s.y2 - s.y1| / 2 - s.y2| ≤ 1 / 8000 := by
    intro X hX
    rw [hg]
    have e : X + (s.y2 - s.y1) / 2 - s.y2 = X - (s.y1 + s.y2) / 2 := by ring
    rw [e]
    exact hX
  refine ⟨keyA _ hm.1, keyC _ hm.2, keyB _ hm.1, keyD _ hm.2,
    optClose_refl s.cx1, optClose_refl s.cy1,
    optClose_refl s.cx2, optClose_refl s.cy2,
    reflOpt2_close_fst lx1 ly1 lx2 ly2 hline s.textX s.textY,
    reflOpt2_close_snd lx1 ly1 lx2 ly2 hline s.textX s.textY,
    pointsClose_refl s.points, ?_, ?_⟩
  · simp only [Option.getD_some]
    ring
  · intro harc
    rcases h with h | h <;> rw [harc] at h <;> exact absurd h (by decide)

/-- Counterexample to C5 as stated: mirroring the line shape shE (first
endpoint (0.000392, -0.00023)) twice across the nondegenerate line through
(0,0) and (2,1) moves x1 to 0.0005, a distance of 0.000108 from the original —
more than the claimed 1e-4 tolerance.  Each reflection rounds to 4 decimals
and the 3-4-5 reflection matrix aligns both rounding errors; every rounded
value on this path (0.512, 4.516, 4.6 in rounding units) is far from a tie,
so the source's floating-point evaluation rounds the same way. -/
theorem C5_counterexample :
    shE.x1 = 392 / 1000000 ∧
    (mirrorShape 0 0 2 1 0 "m2" (mirrorShape 0 0 2 1 0 "m1" shE)).x1 = 1 / 2000 ∧
    ¬(|(1 / 2000 : ℚ) - 392 / 1000000| ≤ 1 / 10000) := by
  refine ⟨rfl, ?_, by rw [abs_le]; norm_num⟩
  norm_num [mirrorShape, shE, isBoxBased, reflectPoint, reflOpt, jround]

/-- C5 as amended.  Applying the mirror operation twice across the same
nondegenerate line (mirrorShape is the per-selected-shape body of
performMirror, and the line angle is the same both times since it is computed
from the same two line points) returns every coordinate field to within
1/8000 = 1.25e-4 of its original value — rather than the claimed 1e-4, which
the rounding amplification refutes — for point-based and box-based shapes
alike, where rect/round_rect corners are stored normalized and a text shape
duplicates its anchor into (x2,y2); the rotation field and, for an arc, the
start and end sweep angles return exactly to their original values via the
swap newStart = 2*lineAngle - oldEnd, newEnd = 2*lineAngle - oldStart applied
twice. -/
theorem C5_mirror_involution (lx1 ly1 lx2 ly2 lineAngle : ℚ)
    (id1 id2 : String) (s : Shape)
    (hline : ¬(lx2 - lx1 = 0 ∧ ly2 - ly1 = 0))
    (hrect : s.type = .rect ∨ s.type = .round_rect →
      s.x1 ≤ s.x2 ∧ s.y1 ≤ s.y2)
    (htext : s.type = .text → s.x2 = s.x1 ∧ s.y2 = s.y1) :
    mirrorClose (mirrorShape lx1 ly1 lx2 ly2 lineAngle id2
      (mirrorShape lx1 ly1 lx2 ly2 lineAngle id1 s)) s := by
  cases htype : s.type with
  | freehand =>
      exact mirror2Shape_point lx1 ly1 lx2 ly2 lineAngle id1 id2 s hline
        (by rw [htype]; rfl)
  | line =>
      exact mirror2Shape_point lx1 ly1 lx2 ly2 lineAngle id1 id2 s hline
        (by rw [htype]; rfl)
  | bezier =>
      exact mirror2Shape_point lx1 ly1 lx2 ly2 lineAngle id1 id2 s hline
        (by rw [htype]; rfl)
  | measure =>
      exact mirror2Shape_point lx1 ly1 lx2 ly2 lineAngle id1 id2 s hline
        (by rw [htype]; rfl)
  | measure_radius =>
      exact mirror2Shape_point lx1 ly1 lx2 ly2 lineAngle id1 id2 s hline
        (by rw [htype]; rfl)
  | mark_angle =>
      exact mirror2Shape_point lx1 ly1 lx2 ly2 lineAngle id1 id2 s hline
        (by rw [htype]; rfl)
  | brace =>
      exact mirror2Shape_point lx1 ly1 lx2 ly2 lineAngle id1 id2 s hline
        (by rw [htype]; rfl)
  | rect =>
      exact mirror2Shape_rect lx1 ly1 lx2 ly2 lineAngle id1 id2 s hline
        (Or.inl htype) (hrect (Or.inl htype))
  | round_rect =>
      exact mirror2Shape_rect lx1 ly1 lx2 ly2 lineAngle id1 id2 s hline
        (Or.inr htype) (hrect (Or.inr htype))
  | circle =>
      exact mirror2Shape_ce lx1 ly1 lx2 ly2 lineAngle id1 id2 s hline
        (Or.inl htype)
  | ellipse =>
      exact mirror2Shape_ce lx1 ly1 lx2 ly2 lineAngle id1 id2 s hline
        (Or.inr htype)
  | arc =>
      exact mirror2Shape_arc lx1 ly1 lx2 ly2 lineAngle id1 id2 s hline htype
  | text =>
      exact mirror2Shape_text lx1 ly1 lx2 ly2 lineAngle id1 id2 s hline htype
        (htext htype)

/-- Witness for C5 at a concrete input: double mirror of the line shA across
the x axis. -/
theorem C5_witness :
    (¬((1 : ℚ) - 0 = 0 ∧ (0 : ℚ) - 0 = 0)) ∧
    mirrorClose (mirrorShape 0 0 1 0 0 "w2"
      (mirrorShape 0 0 1 0 0 "w1" shA)) shA := by
  have hline : ¬((1 : ℚ) - 0 = 0 ∧ (0 : ℚ) - 0 = 0) := by norm_num
  refine ⟨hline, C5_mirror_involution 0 0 1 0 0 "w1" "w2" shA hline ?_ ?_⟩
  · intro hc
    rcases hc with hc | hc <;> exact absurd hc (by decide)
  · intro hc
    exact absurd hc (by decide)
